import Mathlib

/-!
Verification development for the smart-thumbnail application
(`gpt_layout.py` layout validator and `image_renderer.py` renderer).

Layout documents are loosely-typed JSON-shaped dictionaries; we embed them
as the inductive `JVal` (strings, integers, objects as ordered key/value
lists, arrays).  Python dictionaries produced by `json.loads` have unique
keys and preserve insertion order; item assignment replaces the value of an
existing key in place and appends a fresh key at the end, which is exactly
the behaviour of `setField` below.  A Python runtime error (TypeError,
AttributeError, ZeroDivisionError, ...) escaping a function is modelled by
`Option`/`none`; an error that the source catches locally is modelled by
the handler's value.

Numeric modelling notes, recorded once here:
* Python `int`s are unbounded, embedded as `Int` (or `Nat` where the source
  guarantees non-negative values).
* The renderer computes ratios with IEEE-754 double division; we model the
  arithmetic exactly over `ℚ` with `pytrunc` (truncation toward zero) for
  Python's `int(...)` cast.  This is exact for the integer inputs used in
  the statements below; binary floating point can differ from the rational
  value near truncation boundaries for extreme inputs.
* `math.sqrt` in the diagonal gradient is irrational; the diagonal case is
  kept symbolic in the paint trace (its per-pixel colours are not needed by
  any property here).
-/

inductive JVal where
  | str (s : String)
  | int (n : Int)
  | obj (fields : List (String × JVal))
  | arr (items : List JVal)

abbrev Fields := List (String × JVal)

/-- Python `d.get(k)` / `d[k]` lookup on an (insertion-ordered) dict. -/
def getField : Fields → String → Option JVal
  | [], _ => none
  | (k0, v) :: rest, k => if k0 = k then some v else getField rest k

/-- Python `d[k] = v`: replace the value of an existing key in place,
append a fresh key at the end. -/
def setField : Fields → String → JVal → Fields
  | [], k, v => [(k, v)]
  | (k0, w) :: rest, k, v =>
      if k0 = k then (k0, v) :: rest else (k0, w) :: setField rest k v

/-- Python `k in d`. -/
def hasField (fs : Fields) (k : String) : Bool :=
  (getField fs k).isSome

theorem getField_setField_self (fs : Fields) (k : String) (v : JVal) :
    getField (setField fs k v) k = some v := by
  induction fs with
  | nil => simp [setField, getField]
  | cons p rest ih =>
      obtain ⟨k0, w⟩ := p
      by_cases h : k0 = k <;> simp [setField, getField, h, ih]

theorem getField_setField_ne (fs : Fields) (k k' : String) (v : JVal)
    (h : k' ≠ k) : getField (setField fs k v) k' = getField fs k' := by
  have hne : ¬ k = k' := fun hh => h hh.symm
  induction fs with
  | nil => simp [setField, getField, hne]
  | cons p rest ih =>
      obtain ⟨k0, w⟩ := p
      by_cases h0 : k0 = k
      · subst h0
        simp [setField, getField, hne]
      · simp [setField, getField, h0, ih]

theorem setField_getField_self (fs : Fields) (k : String) (v : JVal)
    (h : getField fs k = some v) : setField fs k v = fs := by
  induction fs with
  | nil => simp [getField] at h
  | cons p rest ih =>
      obtain ⟨k0, w⟩ := p
      by_cases h0 : k0 = k
      · subst h0
        simp [getField] at h
        simp [setField, h]
      · simp [getField, h0] at h
        simp [setField, h0, ih h]

theorem setField_setField_same (fs : Fields) (k : String) (v v' : JVal) :
    setField (setField fs k v) k v' = setField fs k v' := by
  induction fs with
  | nil => simp [setField]
  | cons p rest ih =>
      obtain ⟨k0, w⟩ := p
      by_cases h0 : k0 = k <;> simp [setField, h0, ih]

theorem hasField_setField_self (fs : Fields) (k : String) (v : JVal) :
    hasField (setField fs k v) k = true := by
  simp [hasField, getField_setField_self]

theorem hasField_setField_ne (fs : Fields) (k k' : String) (v : JVal)
    (h : k' ≠ k) : hasField (setField fs k v) k' = hasField fs k' := by
  simp [hasField, getField_setField_ne fs k k' v h]

/-! ## Hex colour parsing (`_hex_to_rgb`, image_renderer.py lines 273-279)

`hex_color.lstrip('#')` strips every leading `#`; then three two-character
slices are parsed with `int(s, 16)`.  A slice shorter than two characters
is what Python slicing of a short string yields; `int("", 16)` raises while
a single hex digit parses.  We model `int(s, 16)` as succeeding exactly on
non-empty all-hex-digit strings (Python additionally tolerates exotic
spellings such as surrounding whitespace or a sign, which no 6-digit colour
string contains). -/

def hexVal (c : Char) : Option Nat :=
  if '0' ≤ c ∧ c ≤ '9' then some (c.toNat - 48)
  else if 'a' ≤ c ∧ c ≤ 'f' then some (c.toNat - 87)
  else if 'A' ≤ c ∧ c ≤ 'F' then some (c.toNat - 55)
  else none

/-- Python `int(s, 16)` on a short slice. -/
def pyIntHex (l : List Char) : Option Nat := do
  if l.isEmpty then none
  else
    let vs ← l.mapM hexVal
    pure (vs.foldl (fun a v => 16 * a + v) 0)

/-- Python `s.lstrip('#')`. -/
def stripHash : List Char → List Char
  | '#' :: rest => stripHash rest
  | l => l

/-- The fallible core of `_hex_to_rgb`: the three slice parses. -/
def hexPairs (l : List Char) : Option (Int × Int × Int) := do
  let r ← pyIntHex (l.take 2)
  let g ← pyIntHex ((l.drop 2).take 2)
  let b ← pyIntHex ((l.drop 4).take 2)
  pure ((r : Int), (g : Int), (b : Int))

/-- `hexParse`: parse result of a colour string before the fail-closed
default is applied. -/
def hexParse (s : String) : Option (Int × Int × Int) :=
  hexPairs (stripHash s.toList)

/-- `_hex_to_rgb` applied to an arbitrary dictionary value: any exception
(non-string input, short string, non-hex digit) is caught internally and
`(0, 0, 0)` is returned. -/
def hexToRgbV : JVal → Int × Int × Int
  | .str s => (hexParse s).getD (0, 0, 0)
  | _ => (0, 0, 0)

/-! ## Background painter (`_draw_background` / `_draw_gradient`,
image_renderer.py lines 74-125)

The paint trace records what is handed to the drawing library.  For a
gradient the per-column/row/pixel colours are a deterministic function of
the two parsed endpoint colours and the direction, so the trace records
exactly those (`gradientColor` below gives the per-pixel semantics for the
horizontal and vertical cases).  The `except` fallback of `_draw_gradient`
(line 125, whole-canvas fill with the raw start colour) is unreachable for
colour-parse failures because `_hex_to_rgb` catches its own exceptions and
returns `(0, 0, 0)`; the `try` body then draws only with integer colour
tuples, which cannot raise. -/

inductive BgPaint where
  | solidBg (color : JVal)
  | gradBg (startRgb endRgb : Int × Int × Int) (direction : JVal)
  | nullBg

/-- `_draw_background`: dispatch on the loosely-typed background dict.
`none` models an exception escaping (non-dict background).  An unknown
`type` paints nothing (`nullBg`, the canvas stays white). -/
def drawBackground : JVal → Option BgPaint
  | .obj fs =>
      let t := (getField fs "type").getD (.str "solid")
      match t with
      | .str "solid" => some (.solidBg ((getField fs "color").getD (.str "#FFFFFF")))
      | .str "gradient" =>
          some (.gradBg
            (hexToRgbV ((getField fs "gradientStart").getD (.str "#FFFFFF")))
            (hexToRgbV ((getField fs "gradientEnd").getD (.str "#000000")))
            ((getField fs "gradientDirection").getD (.str "horizontal")))
      | _ => some .nullBg
  | _ => none

/-- Python `int(x)` on an exact rational: truncation toward zero. -/
def pytrunc (q : ℚ) : Int :=
  if 0 ≤ q then ⌊q⌋ else -⌊-q⌋

/-- One interpolated channel: `int(start + (end - start) * ratio)`. -/
def lerpChan (a b : Int) (ratio : ℚ) : Int :=
  pytrunc ((a : ℚ) + ((b : ℚ) - (a : ℚ)) * ratio)

/-- Per-pixel colour of the gradient trace for the horizontal and vertical
directions (lines 94-108); the diagonal case involves `math.sqrt` and is
not needed by any stated property. -/
def gradientColor (s e : Int × Int × Int) (direction : String) (x y : Nat) :
    Option (Int × Int × Int) :=
  if direction = "horizontal" then
    let r : ℚ := (x : ℚ) / 1280
    some (lerpChan s.1 e.1 r, lerpChan s.2.1 e.2.1 r, lerpChan s.2.2 e.2.2 r)
  else if direction = "vertical" then
    let r : ℚ := (y : ℚ) / 720
    some (lerpChan s.1 e.1 r, lerpChan s.2.1 e.2.1 r, lerpChan s.2.2 e.2.2 r)
  else none

/-! ## Aspect-fit resize (`_draw_image`, image_renderer.py lines 189-200)

`none` models a runtime error escaping the resize computation and being
caught by `_draw_image`'s handler (the element is then skipped): a zero
source or box height raises `ZeroDivisionError`; a zero source width
together with a negative target ratio divides by `0.0` in the first
branch. -/

def aspectFit (srcW srcH : Nat) (boxW boxH : Int) : Option (Int × Int) :=
  if srcH = 0 ∨ boxH = 0 then none
  else
    let origR : ℚ := (srcW : ℚ) / (srcH : ℚ)
    let targR : ℚ := (boxW : ℚ) / (boxH : ℚ)
    if origR > targR then
      if origR = 0 then none
      else some (boxW, pytrunc ((boxW : ℚ) / origR))
    else some (pytrunc ((boxH : ℚ) * origR), boxH)

/-! ## Renderer (`render_thumbnail` and helpers) -/

/-- Is the element's `type` field this string?  (Python `==` against a
string literal: `False` for any non-string value.) -/
def typeIs (fs : Fields) (t : String) : Bool :=
  match getField fs "type" with
  | some (.str s) => s = t
  | _ => false

/-- Is the element's `role` field the string `"title"`? -/
def roleIsTitle (fs : Fields) : Bool :=
  match getField fs "role" with
  | some (.str s) => s = "title"
  | _ => false

/-- A subject image: dimensions plus whether it carries an alpha channel
(`RGBA` mode, used as a paste mask). -/
structure Subject where
  w : Nat
  h : Nat
  rgba : Bool

/-- Drawing-library environment, fixed per process: the font lookup
(`_get_font`, a scan of filesystem font paths) composed with
`draw.textbbox` measurement, and the library's colour acceptance.  The
measured width/height of a content string depends on the resolved font,
i.e. on the raw `fontSize` and `fontWeight` values; the filesystem is
fixed for the process lifetime, so the whole lookup is a parameter.
`colorOk v` models whether `draw.text(..., fill=v)` accepts the value
`v` as an ink: the colour is parsed before any pixel is touched, and an
unacceptable value (e.g. a string `ImageColor` cannot parse) raises at
that call. -/
structure FontEnv where
  measure : String → JVal → JVal → Nat × Nat
  colorOk : JVal → Bool

/-- One painted element of the trace.  A text element is painted as its
stroke offset passes followed by the fill pass; all of those are determined
by the recorded parameters (content, measured box, clamped position, stroke
colour and width), so the trace keeps one record per element.
`fillDrawn = false` records a partially painted element: the stroke offset
passes were painted (`strokeWidth > 0`) but the final fill call raised on
an unacceptable fill colour, so only the stroke passes are on the
canvas. -/
inductive ElemOp where
  | paste (x y w h : Int) (alphaMask : Bool)
  | textPaint (x y : Int) (tw th : Nat) (content : String)
      (fontSize fontWeight fill strokeColor : JVal) (strokeWidth : Int)
      (fillDrawn : Bool)

/-- Field extraction in `_draw_image`/`_draw_text_with_effects`:
`d.get(k, default)` whose value is subsequently used as a number.  A
non-integer value raises (at the arithmetic or at the library call) before
anything is painted, so the element is skipped. -/
def intField (fs : Fields) (k : String) (d : Int) : Option Int :=
  match getField fs k with
  | none => some d
  | some (.int n) => some n
  | some _ => none

/-- `_draw_image` (lines 179-222): aspect-preserving resize then
position clamp then paste.  `none` means the internal `try` caught an
error and the element was skipped (nothing painted). -/
def drawImage (s : Subject) (fs : Fields) : Option ElemOp :=
  match intField fs "x" 0, intField fs "y" 0,
      intField fs "width" 300, intField fs "height" 300 with
  | some x, some y, some w, some h =>
      match aspectFit s.w s.h w h with
      | none => none
      | some (nw, nh) =>
          if nw < 0 ∨ nh < 0 then none
          else
            some (.paste (max 0 (min x (1280 - nw))) (max 0 (min y (720 - nh)))
              nw nh s.rgba)
  | _, _, _, _ => none

/-- The `content` value: the default is the empty string, a non-string
value fails at measurement. -/
def strField (fs : Fields) (k : String) : Option String :=
  match getField fs k with
  | none => some ""
  | some (.str s) => some s
  | some _ => none

/-- The `stroke` value: the default is an empty dict, a non-dict value
fails at `stroke_data.get`. -/
def strokeField (fs : Fields) : Option Fields :=
  match getField fs "stroke" with
  | none => some []
  | some (.obj sfs) => some sfs
  | some _ => none

/-- Alignment resolution (lines 150-153): `center` and `right` shift the
x anchor by the measured width (Python `//` on a non-negative width). -/
def alignX (alignment : JVal) (x : Int) (tw : Nat) : Int :=
  match alignment with
  | .str a =>
      if a = "center" then x - (tw / 2 : Nat)
      else if a = "right" then x - (tw : Int) else x
  | _ => x

/-- `_draw_text_with_effects` (lines 127-177): extract fields, measure,
align, clamp, then paint stroke passes and fill.  `none` means the `try`
caught an error before anything was painted and the element was fully
skipped: a non-string `content` fails at measurement, a non-integer
`x`/`y` at the alignment/clamp arithmetic, a non-dict `stroke` or a
non-integer stroke `width` at the stroke extraction — all of which precede
the first paint call — and likewise a rejected stroke colour with
`stroke_width > 0`, because the first stroke offset call parses its ink
and raises before touching a pixel.  A rejected fill colour, however,
raises only at the final `draw.text` (line 171), after the stroke offset
passes (lines 163-168) have already painted: the error is caught, but the
stroke passes remain on the canvas — recorded as a `textPaint` with
`fillDrawn = false`. -/
def drawText (env : FontEnv) (fs : Fields) : Option ElemOp :=
  match strField fs "content", intField fs "x" 0, intField fs "y" 0 with
  | some content, some x, some y =>
      let fontSize := (getField fs "fontSize").getD (.int 48)
      let fontWeight := (getField fs "fontWeight").getD (.str "normal")
      let fill := (getField fs "color").getD (.str "#000000")
      let alignment := (getField fs "alignment").getD (.str "left")
      let tw := (env.measure content fontSize fontWeight).1
      let th := (env.measure content fontSize fontWeight).2
      let xa := max 0 (min (alignX alignment x tw) (1280 - (tw : Int)))
      let ya := max 0 (min y (720 - (th : Int)))
      match strokeField fs with
      | none => none
      | some strokeData =>
          let strokeColor := (getField strokeData "color").getD (.str "#000000")
          match intField strokeData "width" 0 with
          | none => none
          | some strokeWidth =>
              if 0 < strokeWidth ∧ env.colorOk strokeColor = false then
                none
              else if env.colorOk fill = false then
                if 0 < strokeWidth then
                  some (.textPaint xa ya tw th content fontSize fontWeight
                    fill strokeColor strokeWidth false)
                else none
              else
                some (.textPaint xa ya tw th content fontSize fontWeight fill
                  strokeColor strokeWidth true)
  | _, _, _ => none

/-- One `for element in elements` loop of `render_thumbnail`: per element,
`element.get('type')` (raising on a non-dict element, hence `none`), then
the loop body `f` contributes zero or one paint operations. -/
def elemLoop (f : Fields → List ElemOp) : List JVal → Option (List ElemOp)
  | [] => some []
  | .obj fs :: rest => (elemLoop f rest).map (fun ops => f fs ++ ops)
  | _ :: _ => none

/-- Loop body of the first pass (lines 63-65): paint an image-typed
element when a subject image was supplied. -/
def imagePassBody (s? : Option Subject) (fs : Fields) : List ElemOp :=
  if typeIs fs "image" then
    match s? with
    | some s => (drawImage s fs).toList
    | none => []
  else []

/-- Loop body of the second pass (lines 67-70): paint a text-typed
element. -/
def textPassBody (env : FontEnv) (fs : Fields) : List ElemOp :=
  if typeIs fs "text" then (drawText env fs).toList else []

def renderPass1 (s? : Option Subject) : List JVal → Option (List ElemOp) :=
  elemLoop (imagePassBody s?)

def renderPass2 (env : FontEnv) : List JVal → Option (List ElemOp) :=
  elemLoop (textPassBody env)

/-- The rendered canvas: a 1280x720 white canvas, the background paint,
then the element paint trace (images first, then texts). -/
structure CanvasModel where
  bg : BgPaint
  ops : List ElemOp

/-- `layout_data.get('elements', [])`, demanded as an iterable list. -/
def elementsOf (fs : Fields) : Option (List JVal) :=
  match getField fs "elements" with
  | none => some []
  | some (.arr l) => some l
  | some _ => none

/-- `render_thumbnail` (lines 48-72).  `none` models an exception escaping
the renderer: a non-dict layout or background, a non-list `elements`
value, or a non-dict element.  (A non-list `elements` in fact only raises
once a first element is demanded; the empty-iterable corner succeeds
vacuously in Python and is conservatively folded into `none` here — no
stated property touches it.) -/
def renderThumbnail (env : FontEnv) (layout : JVal) (s? : Option Subject) :
    Option CanvasModel :=
  match layout with
  | .obj fs =>
      match drawBackground ((getField fs "background").getD (.obj [])) with
      | none => none
      | some bg =>
          match elementsOf fs with
          | none => none
          | some es =>
              match renderPass1 s? es, renderPass2 env es with
              | some imgOps, some txtOps => some ⟨bg, imgOps ++ txtOps⟩
              | _, _ => none
  | _ => none

/-! ## Layout validator (`_validate_and_fix_layout`, gpt_layout.py
lines 185-246)

The function mutates the incoming dict in place and returns it; the
embedding threads the field list.  `none` models a runtime error escaping
the validator (json-shaped inputs whose `elements` is not a list, whose
elements are not dicts, or whose `x`/`y` hold non-integer values that make
`min`/`max` raise).  The `has_title`/`has_subtitle` scan only prints
warnings and does not alter the document. -/

/-- The default background inserted when `background` is missing. -/
def defaultBg : JVal :=
  .obj [("type", .str "gradient"), ("gradientStart", .str "#FF6B6B"),
    ("gradientEnd", .str "#4ECDC4"), ("gradientDirection", .str "horizontal")]

/-- Coordinate clamp `element[k] = max(0, min(element[k], hi))`, applied
only when the key is present; a non-integer value raises at `min`. -/
def clampField (fs : Fields) (k : String) (hi : Int) : Option Fields :=
  match getField fs k with
  | none => some fs
  | some (.int n) => some (setField fs k (.int (max 0 (min n hi))))
  | some _ => none

/-- The `if k not in element: element[k] = v` defaulting idiom. -/
def defaultField (fs : Fields) (k : String) (v : JVal) : Fields :=
  if hasField fs k then fs else setField fs k v

/-- Text-element defaulting (lines 220-235), in source order. -/
def textDefaults (fs : Fields) : Fields :=
  let fs := defaultField fs "fontSize" (.int (if roleIsTitle fs then 72 else 36))
  let fs := defaultField fs "color" (.str "#FFFFFF")
  let fs := defaultField fs "fontWeight" (.str "bold")
  let fs := defaultField fs "alignment" (.str "left")
  defaultField fs "stroke" (.obj [("color", .str "#000000"),
    ("width", .int (if roleIsTitle fs then 4 else 3))])

/-- Image-element defaulting (lines 238-244). -/
def imageDefaults (fs : Fields) : Fields :=
  let fs := defaultField fs "width" (.int 350)
  let fs := defaultField fs "height" (.int 350)
  defaultField fs "rotation" (.int 0)

/-- Sequential per-element loop: stop at the first escaping error. -/
def mapMO (f : JVal → Option JVal) : List JVal → Option (List JVal)
  | [] => some []
  | a :: l =>
      match f a with
      | none => none
      | some b =>
          match mapMO f l with
          | none => none
          | some bs => some (b :: bs)

/-- The per-element body of the validator loop (lines 212-244). -/
def fixElement : JVal → Option JVal
  | .obj fs =>
      match clampField fs "x" 1280 with
      | none => none
      | some fs1 =>
          match clampField fs1 "y" 720 with
          | none => none
          | some fs2 =>
              let fs3 := if typeIs fs2 "text" then textDefaults fs2 else fs2
              let fs4 := if typeIs fs3 "image" then imageDefaults fs3 else fs3
              some (.obj fs4)
  | _ => none

/-- The element-loop half of the validator, after background/elements
defaulting: repair each element in order and store the result back. -/
def validateFields (fs : Fields) : Option JVal :=
  match getField fs "elements" with
  | some (.arr es) =>
      (mapMO fixElement es).map (fun es' => .obj (setField fs "elements" (.arr es')))
  | _ => none

/-- `_validate_and_fix_layout`: default the background and the element
list, then repair each element in order. -/
def validateDoc : JVal → Option JVal
  | .obj fs =>
      validateFields (defaultField (defaultField fs "background" defaultBg)
        "elements" (.arr []))
  | _ => none

/-! ## Structural lemmas about the validator's field operations -/

theorem getField_defaultField_ne (fs : Fields) (k k' : String) (v : JVal)
    (h : k' ≠ k) : getField (defaultField fs k v) k' = getField fs k' := by
  unfold defaultField
  by_cases hk : hasField fs k <;> simp [hk, getField_setField_ne fs k k' v h]

theorem hasField_defaultField_self (fs : Fields) (k : String) (v : JVal) :
    hasField (defaultField fs k v) k = true := by
  unfold defaultField
  by_cases hk : hasField fs k <;> simp [hk, hasField_setField_self]

theorem defaultField_of_present (fs : Fields) (k : String) (v : JVal)
    (h : hasField fs k = true) : defaultField fs k v = fs := by
  simp [defaultField, h]

theorem getField_defaultField_of_absent (fs : Fields) (k : String) (v : JVal)
    (h : getField fs k = none) : getField (defaultField fs k v) k = some v := by
  simp [defaultField, hasField, h, getField_setField_self]

theorem hasField_defaultField_mono (fs : Fields) (k k' : String) (v : JVal)
    (h : hasField fs k' = true) : hasField (defaultField fs k v) k' = true := by
  by_cases hk : k' = k
  · subst hk; exact hasField_defaultField_self fs k' v
  · by_cases hp : hasField fs k <;>
      simp [defaultField, hp, h, hasField_setField_ne fs k k' v hk]

theorem clampField_cases (fs : Fields) (k : String) (hi : Int) (fs' : Fields)
    (h : clampField fs k hi = some fs') :
    (getField fs k = none ∧ fs' = fs) ∨
      ∃ n : Int, getField fs k = some (.int n) ∧
        fs' = setField fs k (.int (max 0 (min n hi))) := by
  unfold clampField at h
  cases hg : getField fs k with
  | none => rw [hg] at h; exact Or.inl ⟨rfl, (Option.some.injEq _ _ ▸ h).symm⟩
  | some v =>
      rw [hg] at h
      cases v with
      | int n =>
          exact Or.inr ⟨n, rfl, by
            have := (Option.some.injEq _ _ ▸ h); exact this.symm⟩
      | str s => exact absurd h (by simp)
      | obj o => exact absurd h (by simp)
      | arr a => exact absurd h (by simp)

theorem clampField_getField_ne (fs fs' : Fields) (k k' : String) (hi : Int)
    (hne : k' ≠ k) (h : clampField fs k hi = some fs') :
    getField fs' k' = getField fs k' := by
  rcases clampField_cases fs k hi fs' h with ⟨-, rfl⟩ | ⟨n, -, rfl⟩
  · rfl
  · exact getField_setField_ne fs k k' _ hne

theorem getField_textDefaults_ne (fs : Fields) (k : String)
    (n1 : k ≠ "fontSize") (n2 : k ≠ "color") (n3 : k ≠ "fontWeight")
    (n4 : k ≠ "alignment") (n5 : k ≠ "stroke") :
    getField (textDefaults fs) k = getField fs k := by
  simp only [textDefaults]
  rw [getField_defaultField_ne _ _ _ _ n5, getField_defaultField_ne _ _ _ _ n4,
    getField_defaultField_ne _ _ _ _ n3, getField_defaultField_ne _ _ _ _ n2,
    getField_defaultField_ne _ _ _ _ n1]

theorem getField_imageDefaults_ne (fs : Fields) (k : String)
    (n1 : k ≠ "width") (n2 : k ≠ "height") (n3 : k ≠ "rotation") :
    getField (imageDefaults fs) k = getField fs k := by
  simp only [imageDefaults]
  rw [getField_defaultField_ne _ _ _ _ n3, getField_defaultField_ne _ _ _ _ n2,
    getField_defaultField_ne _ _ _ _ n1]

theorem textDefaults_present (fs : Fields) :
    hasField (textDefaults fs) "fontSize" = true ∧
    hasField (textDefaults fs) "color" = true ∧
    hasField (textDefaults fs) "fontWeight" = true ∧
    hasField (textDefaults fs) "alignment" = true ∧
    hasField (textDefaults fs) "stroke" = true := by
  simp only [textDefaults]
  refine ⟨?_, ?_, ?_, ?_, ?_⟩ <;>
    repeat (first
      | exact hasField_defaultField_self ..
      | apply hasField_defaultField_mono)

theorem imageDefaults_present (fs : Fields) :
    hasField (imageDefaults fs) "width" = true ∧
    hasField (imageDefaults fs) "height" = true ∧
    hasField (imageDefaults fs) "rotation" = true := by
  simp only [imageDefaults]
  refine ⟨?_, ?_, ?_⟩ <;>
    repeat (first
      | exact hasField_defaultField_self ..
      | apply hasField_defaultField_mono)

theorem textDefaults_of_present (fs : Fields)
    (h1 : hasField fs "fontSize" = true) (h2 : hasField fs "color" = true)
    (h3 : hasField fs "fontWeight" = true) (h4 : hasField fs "alignment" = true)
    (h5 : hasField fs "stroke" = true) : textDefaults fs = fs := by
  simp only [textDefaults]
  rw [defaultField_of_present _ _ _ h1, defaultField_of_present _ _ _ h2,
    defaultField_of_present _ _ _ h3, defaultField_of_present _ _ _ h4,
    defaultField_of_present _ _ _ h5]

theorem imageDefaults_of_present (fs : Fields)
    (h1 : hasField fs "width" = true) (h2 : hasField fs "height" = true)
    (h3 : hasField fs "rotation" = true) : imageDefaults fs = fs := by
  simp only [imageDefaults]
  rw [defaultField_of_present _ _ _ h1, defaultField_of_present _ _ _ h2,
    defaultField_of_present _ _ _ h3]

theorem typeIs_congr (fs fs' : Fields) (t : String)
    (h : getField fs' "type" = getField fs "type") : typeIs fs' t = typeIs fs t := by
  unfold typeIs
  rw [h]

theorem typeIs_unique (fs : Fields) (t1 t2 : String) (hne : t1 ≠ t2)
    (h : typeIs fs t1 = true) : typeIs fs t2 = false := by
  unfold typeIs at h ⊢
  split at h
  · next s heq =>
      simp only [decide_eq_true_eq] at h
      subst h
      simp [hne]
  · simp at h

theorem clampField_of_absent (g : Fields) (k : String) (hi : Int)
    (hget : getField g k = none) : clampField g k hi = some g := by
  unfold clampField
  rw [hget]

theorem clampField_of_clamped (g : Fields) (k : String) (hi : Int) (n : Int)
    (hget : getField g k = some (.int (max 0 (min n hi)))) :
    clampField g k hi = some g := by
  unfold clampField
  rw [hget]
  dsimp only
  have hmm : max 0 (min (max 0 (min n hi)) hi) = max 0 (min n hi) := by omega
  rw [hmm, setField_getField_self g k _ hget]

theorem mapMO_eq_some_forall2 (f : JVal → Option JVal) :
    ∀ {l l' : List JVal}, mapMO f l = some l' →
      List.Forall₂ (fun a b => f a = some b) l l' := by
  intro l
  induction l with
  | nil =>
      intro l' h
      simp [mapMO] at h
      subst h
      constructor
  | cons a rest ih =>
      intro l' h
      rw [mapMO] at h
      cases hfa : f a with
      | none => rw [hfa] at h; simp at h
      | some b =>
          rw [hfa] at h
          cases hbs : mapMO f rest with
          | none => rw [hbs] at h; simp at h
          | some bs =>
              rw [hbs] at h
              simp only [Option.some.injEq] at h
              subst h
              exact List.Forall₂.cons hfa (ih hbs)

theorem mapMO_idem (f : JVal → Option JVal)
    (hf : ∀ a b, f a = some b → f b = some b) :
    ∀ {l l' : List JVal}, mapMO f l = some l' → mapMO f l' = some l' := by
  intro l
  induction l with
  | nil =>
      intro l' h
      simp [mapMO] at h
      subst h
      simp [mapMO]
  | cons a rest ih =>
      intro l' h
      rw [mapMO] at h
      cases hfa : f a with
      | none => rw [hfa] at h; simp at h
      | some b =>
          rw [hfa] at h
          cases hbs : mapMO f rest with
          | none => rw [hbs] at h; simp at h
          | some bs =>
              rw [hbs] at h
              simp only [Option.some.injEq] at h
              subst h
              rw [mapMO, hf a b hfa, ih hbs]

theorem fixElement_idem (e e' : JVal) (h : fixElement e = some e') :
    fixElement e' = some e' := by
  cases e with
  | str s => simp [fixElement] at h
  | int n => simp [fixElement] at h
  | arr l => simp [fixElement] at h
  | obj fs =>
      rw [fixElement] at h
      cases hx : clampField fs "x" 1280 with
      | none => rw [hx] at h; simp at h
      | some fs1 =>
          rw [hx] at h
          dsimp only at h
          cases hy : clampField fs1 "y" 720 with
          | none => rw [hy] at h; simp at h
          | some fs2 =>
              rw [hy] at h
              dsimp only at h
              set fs3 := if typeIs fs2 "text" then textDefaults fs2 else fs2
                with hfs3
              set fs4 := if typeIs fs3 "image" then imageDefaults fs3 else fs3
                with hfs4
              simp only [Option.some.injEq] at h
              subst h
              have frame : ∀ k : String, k ≠ "fontSize" → k ≠ "color" →
                  k ≠ "fontWeight" → k ≠ "alignment" → k ≠ "stroke" →
                  k ≠ "width" → k ≠ "height" → k ≠ "rotation" →
                  getField fs4 k = getField fs2 k := by
                intro k n1 n2 n3 n4 n5 n6 n7 n8
                have h3 : getField fs3 k = getField fs2 k := by
                  rw [hfs3]
                  by_cases ht : typeIs fs2 "text"
                  · simp [ht, getField_textDefaults_ne fs2 k n1 n2 n3 n4 n5]
                  · simp [ht]
                have h4 : getField fs4 k = getField fs3 k := by
                  rw [hfs4]
                  by_cases hi : typeIs fs3 "image"
                  · simp [hi, getField_imageDefaults_ne fs3 k n6 n7 n8]
                  · simp [hi]
                rw [h4, h3]
              have hx2 : getField fs2 "x" = getField fs1 "x" :=
                clampField_getField_ne fs1 fs2 "y" "x" 720 (by decide) hy
              have hx4 : clampField fs4 "x" 1280 = some fs4 := by
                rcases clampField_cases fs "x" 1280 fs1 hx with
                  ⟨habs, rfl⟩ | ⟨n, hn, rfl⟩
                · apply clampField_of_absent
                  rw [frame "x" (by decide) (by decide) (by decide) (by decide)
                    (by decide) (by decide) (by decide) (by decide), hx2]
                  exact habs
                · apply clampField_of_clamped fs4 "x" 1280 n
                  rw [frame "x" (by decide) (by decide) (by decide) (by decide)
                    (by decide) (by decide) (by decide) (by decide), hx2]
                  exact getField_setField_self fs "x" _
              have hy4 : clampField fs4 "y" 720 = some fs4 := by
                rcases clampField_cases fs1 "y" 720 fs2 hy with
                  ⟨habs, heq2⟩ | ⟨n, hn, heq2⟩
                · apply clampField_of_absent
                  rw [frame "y" (by decide) (by decide) (by decide) (by decide)
                    (by decide) (by decide) (by decide) (by decide), heq2]
                  exact habs
                · apply clampField_of_clamped fs4 "y" 720 n
                  rw [frame "y" (by decide) (by decide) (by decide) (by decide)
                    (by decide) (by decide) (by decide) (by decide), heq2]
                  exact getField_setField_self fs1 "y" _
              have htype4 : getField fs4 "type" = getField fs2 "type" :=
                frame "type" (by decide) (by decide) (by decide) (by decide)
                  (by decide) (by decide) (by decide) (by decide)
              have htypeIs4 : ∀ t, typeIs fs4 t = typeIs fs2 t := fun t =>
                typeIs_congr fs2 fs4 t htype4
              rw [fixElement, hx4]
              dsimp only
              rw [hy4]
              dsimp only
              by_cases ht : typeIs fs2 "text"
              · -- text element: fs4 is textDefaults fs2 and is stable
                have htype3 : getField fs3 "type" = getField fs2 "type" := by
                  rw [hfs3]
                  simp [ht, getField_textDefaults_ne fs2 "type" (by decide)
                    (by decide) (by decide) (by decide) (by decide)]
                have himg2 : typeIs fs2 "image" = false :=
                  typeIs_unique fs2 "text" "image" (by decide) ht
                have himg3 : typeIs fs3 "image" = false := by
                  rw [typeIs_congr fs2 fs3 "image" htype3]
                  exact himg2
                have hfs4eq : fs4 = textDefaults fs2 := by
                  rw [hfs4, himg3, if_neg (by simp), hfs3, if_pos ht]
                obtain ⟨p1, p2, p3, p4, p5⟩ := textDefaults_present fs2
                have hstable : textDefaults fs4 = fs4 := by
                  rw [hfs4eq]
                  exact textDefaults_of_present _ p1 p2 p3 p4 p5
                have hnimg : ¬ typeIs fs2 "image" = true := by simp [himg2]
                rw [htypeIs4 "text", if_pos ht, hstable, htypeIs4 "image",
                  if_neg hnimg]
              · by_cases hi : typeIs fs2 "image"
                · -- image element: fs4 is imageDefaults fs2 and is stable
                  have hfs3eq : fs3 = fs2 := by rw [hfs3, if_neg ht]
                  have hfs4eq : fs4 = imageDefaults fs2 := by
                    rw [hfs4, hfs3eq, if_pos hi]
                  obtain ⟨q1, q2, q3⟩ := imageDefaults_present fs2
                  have hstable : imageDefaults fs4 = fs4 := by
                    rw [hfs4eq]
                    exact imageDefaults_of_present _ q1 q2 q3
                  rw [htypeIs4 "text", if_neg ht, htypeIs4 "image",
                    if_pos hi, hstable]
                · -- neither text nor image: fs4 is fs2, untouched
                  rw [htypeIs4 "text", if_neg ht, htypeIs4 "image",
                    if_neg hi]

theorem validateDoc_idem_aux (d d' : JVal) (h : validateDoc d = some d') :
    validateDoc d' = some d' := by
  cases d with
  | str s => simp [validateDoc] at h
  | int n => simp [validateDoc] at h
  | arr l => simp [validateDoc] at h
  | obj fs =>
      rw [validateDoc] at h
      set fs2 := defaultField (defaultField fs "background" defaultBg)
        "elements" (.arr []) with hfs2
      rw [validateFields] at h
      cases hge : getField fs2 "elements" with
      | none => rw [hge] at h; simp at h
      | some v =>
          rw [hge] at h
          cases v with
          | str s => simp at h
          | int n => simp at h
          | obj o => simp at h
          | arr es =>
              dsimp only at h
              cases hm : mapMO fixElement es with
              | none => rw [hm] at h; simp at h
              | some es' =>
                  rw [hm] at h
                  simp only [Option.map_some', Option.some.injEq] at h
                  subst h
                  rw [validateDoc]
                  have hbg2 : hasField fs2 "background" = true := by
                    rw [hfs2]
                    exact hasField_defaultField_mono _ _ _ _
                      (hasField_defaultField_self fs "background" defaultBg)
                  have hbgg : hasField (setField fs2 "elements" (.arr es'))
                      "background" = true := by
                    rw [hasField_setField_ne _ _ _ _ (by decide)]
                    exact hbg2
                  rw [defaultField_of_present _ _ _ hbgg]
                  have helg : hasField (setField fs2 "elements" (.arr es'))
                      "elements" = true := hasField_setField_self _ _ _
                  rw [defaultField_of_present _ _ _ helg]
                  rw [validateFields, getField_setField_self]
                  dsimp only
                  rw [mapMO_idem fixElement fixElement_idem hm]
                  simp only [Option.map_some', Option.some.injEq]
                  rw [setField_setField_same]

/-- C9: the validator is idempotent.  For every input layout document `d`,
running `_validate_and_fix_layout` on its own output returns that output
unchanged (and when the first run raises, so does the composition). -/
theorem C9_validate_idempotent (d : JVal) :
    (validateDoc d).bind validateDoc = validateDoc d := by
  cases hv : validateDoc d with
  | none => rfl
  | some d' =>
      show validateDoc d' = some d'
      exact validateDoc_idem_aux d d' hv

theorem validateDoc_elements (fs : Fields) (es : List JVal) (d' : JVal)
    (hes : getField fs "elements" = some (.arr es))
    (h : validateDoc (.obj fs) = some d') :
    ∃ fs' es', d' = .obj fs' ∧ getField fs' "elements" = some (.arr es') ∧
      List.Forall₂ (fun a b => fixElement a = some b) es es' := by
  rw [validateDoc] at h
  set fs1 := defaultField fs "background" defaultBg with hfs1
  have hes1 : getField fs1 "elements" = some (.arr es) := by
    rw [hfs1, getField_defaultField_ne _ _ _ _ (by decide)]
    exact hes
  have hfseq : defaultField fs1 "elements" (.arr []) = fs1 :=
    defaultField_of_present _ _ _ (by simp [hasField, hes1])
  rw [hfseq, validateFields, hes1] at h
  dsimp only at h
  cases hm : mapMO fixElement es with
  | none => rw [hm] at h; simp at h
  | some es' =>
      rw [hm] at h
      simp only [Option.map_some', Option.some.injEq] at h
      subst h
      exact ⟨_, es', rfl, getField_setField_self _ _ _,
        mapMO_eq_some_forall2 _ hm⟩

theorem getField_imageDefaults_rotation (fs : Fields) :
    getField (imageDefaults fs) "rotation" =
      some ((getField fs "rotation").getD (.int 0)) := by
  simp only [imageDefaults]
  have hfr : getField (defaultField (defaultField fs "width" (.int 350))
      "height" (.int 350)) "rotation" = getField fs "rotation" := by
    rw [getField_defaultField_ne _ _ _ _ (by decide),
      getField_defaultField_ne _ _ _ _ (by decide)]
  cases hr : getField fs "rotation" with
  | none =>
      rw [getField_defaultField_of_absent _ _ _ (by rw [hfr]; exact hr)]
      simp
  | some v =>
      rw [defaultField_of_present _ _ _ (by simp [hasField, hfr, hr])]
      rw [hfr, hr]
      simp

theorem fixElement_rotation (efs : Fields) (e' : JVal)
    (himg : typeIs efs "image" = true)
    (h : fixElement (.obj efs) = some e') :
    ∃ efs', e' = .obj efs' ∧
      getField efs' "rotation" =
        some ((getField efs "rotation").getD (.int 0)) := by
  rw [fixElement] at h
  cases hx : clampField efs "x" 1280 with
  | none => rw [hx] at h; simp at h
  | some fs1 =>
      rw [hx] at h
      dsimp only at h
      cases hy : clampField fs1 "y" 720 with
      | none => rw [hy] at h; simp at h
      | some fs2 =>
          rw [hy] at h
          dsimp only at h
          simp only [Option.some.injEq] at h
          subst h
          have hrot2 : getField fs2 "rotation" = getField efs "rotation" := by
            rw [clampField_getField_ne fs1 fs2 "y" "rotation" 720 (by decide) hy,
              clampField_getField_ne efs fs1 "x" "rotation" 1280 (by decide) hx]
          have htype2 : getField fs2 "type" = getField efs "type" := by
            rw [clampField_getField_ne fs1 fs2 "y" "type" 720 (by decide) hy,
              clampField_getField_ne efs fs1 "x" "type" 1280 (by decide) hx]
          have himg2 : typeIs fs2 "image" = true := by
            rw [typeIs_congr efs fs2 "image" htype2]
            exact himg
          have htext2 : typeIs fs2 "text" = false :=
            typeIs_unique fs2 "image" "text" (by decide) himg2
          have hntext : ¬ typeIs fs2 "text" = true := by simp [htext2]
          rw [if_neg hntext, if_pos himg2]
          refine ⟨imageDefaults fs2, rfl, ?_⟩
          rw [getField_imageDefaults_rotation, hrot2]

/-- Helper for reading one element field out of a finished document (used
only to state concrete counterexamples). -/
def firstElementField (d : JVal) (k : String) : Option JVal :=
  match d with
  | .obj fs =>
      match getField fs "elements" with
      | some (.arr (.obj efs :: _)) => getField efs k
      | _ => none
  | _ => none

/-- C2 counterexample: an image element that arrives with `rotation: 45`
keeps that value through validation — `_validate_and_fix_layout` only
inserts `rotation: 0` when the key is absent, so the validated document's
image element has `rotation = 45`, not `0`. -/
theorem C2_counterexample :
    ((validateDoc (.obj [("elements",
        .arr [.obj [("type", .str "image"), ("rotation", .int 45)]])])).bind
      (fun d => firstElementField d "rotation")) = some (.int 45) ∧
    JVal.int 45 ≠ JVal.int 0 := by
  constructor
  · rfl
  · simp

/-- C2 amended: for every layout document and every image element in it,
the document returned by the validator has that element's `rotation` field
present, equal to the incoming value when one was supplied and to `0`
otherwise (rotation is defaulted, not forced; the renderer never reads
it). -/
theorem C2_rotation_amended (fs : Fields) (es : List JVal) (d' : JVal)
    (i : Nat) (efs : Fields)
    (hes : getField fs "elements" = some (.arr es))
    (hv : validateDoc (.obj fs) = some d')
    (hlt : i < es.length)
    (hel : es.get ⟨i, hlt⟩ = .obj efs)
    (himg : typeIs efs "image" = true) :
    ∃ (fs' : Fields) (es' : List JVal) (hlt' : i < es'.length)
      (efs' : Fields),
      d' = .obj fs' ∧ getField fs' "elements" = some (.arr es') ∧
      es'.get ⟨i, hlt'⟩ = .obj efs' ∧
      getField efs' "rotation" =
        some ((getField efs "rotation").getD (.int 0)) := by
  obtain ⟨fs', es', rfl, hget, hall⟩ := validateDoc_elements fs es d' hes hv
  have hlen := hall.length_eq
  have hlt' : i < es'.length := hlen ▸ hlt
  have hR := (List.forall₂_iff_get.mp hall).2 i hlt hlt'
  rw [hel] at hR
  obtain ⟨efs', heq, hrot⟩ := fixElement_rotation efs _ himg hR
  exact ⟨fs', es', hlt', efs', rfl, hget, heq, hrot⟩

/-- Witness for C2's amended theorem at a concrete input: an image element
with no rotation key is returned with `rotation = 0`. -/
theorem C2_rotation_amended_witness :
    ∃ (fs' : Fields) (es' : List JVal) (hlt' : 0 < List.length es')
      (efs' : Fields),
      (JVal.obj [("elements", .arr [.obj [("type", .str "image"),
          ("width", .int 350), ("height", .int 350), ("rotation", .int 0)]]),
        ("background", defaultBg)]) = .obj fs' ∧
      getField fs' "elements" = some (.arr es') ∧
      es'.get ⟨0, hlt'⟩ = .obj efs' ∧
      getField efs' "rotation" =
        some ((getField [("type", JVal.str "image")] "rotation").getD
          (.int 0)) :=
  C2_rotation_amended [("elements", .arr [.obj [("type", .str "image")]])]
    [.obj [("type", .str "image")]] _ 0 [("type", .str "image")]
    rfl rfl (by decide) rfl rfl

theorem roleIsTitle_congr (fs fs' : Fields)
    (h : getField fs' "role" = getField fs "role") :
    roleIsTitle fs' = roleIsTitle fs := by
  unfold roleIsTitle
  rw [h]

theorem textDefaults_fields (fs : Fields)
    (h1 : getField fs "fontSize" = none) (h2 : getField fs "color" = none)
    (h3 : getField fs "fontWeight" = none)
    (h4 : getField fs "alignment" = none)
    (h5 : getField fs "stroke" = none) :
    getField (textDefaults fs) "fontSize" =
        some (.int (if roleIsTitle fs then 72 else 36)) ∧
    getField (textDefaults fs) "color" = some (.str "#FFFFFF") ∧
    getField (textDefaults fs) "fontWeight" = some (.str "bold") ∧
    getField (textDefaults fs) "alignment" = some (.str "left") ∧
    getField (textDefaults fs) "stroke" =
        some (.obj [("color", .str "#000000"),
          ("width", .int (if roleIsTitle fs then 4 else 3))]) := by
  simp only [textDefaults]
  set g1 := defaultField fs "fontSize"
    (.int (if roleIsTitle fs then 72 else 36)) with hg1
  set g2 := defaultField g1 "color" (.str "#FFFFFF") with hg2
  set g3 := defaultField g2 "fontWeight" (.str "bold") with hg3
  set g4 := defaultField g3 "alignment" (.str "left") with hg4
  have hrole4 : getField g4 "role" = getField fs "role" := by
    rw [hg4, getField_defaultField_ne _ _ _ _ (by decide), hg3,
      getField_defaultField_ne _ _ _ _ (by decide), hg2,
      getField_defaultField_ne _ _ _ _ (by decide), hg1,
      getField_defaultField_ne _ _ _ _ (by decide)]
  have hrole : roleIsTitle g4 = roleIsTitle fs := roleIsTitle_congr fs g4 hrole4
  rw [hrole]
  refine ⟨?_, ?_, ?_, ?_, ?_⟩
  · rw [getField_defaultField_ne _ _ _ _ (by decide), hg4,
      getField_defaultField_ne _ _ _ _ (by decide), hg3,
      getField_defaultField_ne _ _ _ _ (by decide), hg2,
      getField_defaultField_ne _ _ _ _ (by decide), hg1,
      getField_defaultField_of_absent _ _ _ h1]
  · rw [getField_defaultField_ne _ _ _ _ (by decide), hg4,
      getField_defaultField_ne _ _ _ _ (by decide), hg3,
      getField_defaultField_ne _ _ _ _ (by decide), hg2,
      getField_defaultField_of_absent _ _ _ (by
        rw [hg1, getField_defaultField_ne _ _ _ _ (by decide)]
        exact h2)]
  · rw [getField_defaultField_ne _ _ _ _ (by decide), hg4,
      getField_defaultField_ne _ _ _ _ (by decide), hg3,
      getField_defaultField_of_absent _ _ _ (by
        rw [hg2, getField_defaultField_ne _ _ _ _ (by decide), hg1,
          getField_defaultField_ne _ _ _ _ (by decide)]
        exact h3)]
  · rw [getField_defaultField_ne _ _ _ _ (by decide), hg4,
      getField_defaultField_of_absent _ _ _ (by
        rw [hg3, getField_defaultField_ne _ _ _ _ (by decide), hg2,
          getField_defaultField_ne _ _ _ _ (by decide), hg1,
          getField_defaultField_ne _ _ _ _ (by decide)]
        exact h4)]
  · rw [getField_defaultField_of_absent _ _ _ (by
      rw [hg4, getField_defaultField_ne _ _ _ _ (by decide), hg3,
        getField_defaultField_ne _ _ _ _ (by decide), hg2,
        getField_defaultField_ne _ _ _ _ (by decide), hg1,
        getField_defaultField_ne _ _ _ _ (by decide)]
      exact h5)]

theorem fixElement_text (efs : Fields) (e' : JVal)
    (htext : typeIs efs "text" = true)
    (h1 : getField efs "fontSize" = none) (h2 : getField efs "color" = none)
    (h3 : getField efs "fontWeight" = none)
    (h4 : getField efs "alignment" = none)
    (h5 : getField efs "stroke" = none)
    (h : fixElement (.obj efs) = some e') :
    ∃ efs', e' = .obj efs' ∧
      getField efs' "fontSize" =
          some (.int (if roleIsTitle efs then 72 else 36)) ∧
      getField efs' "color" = some (.str "#FFFFFF") ∧
      getField efs' "fontWeight" = some (.str "bold") ∧
      getField efs' "alignment" = some (.str "left") ∧
      getField efs' "stroke" =
          some (.obj [("color", .str "#000000"),
            ("width", .int (if roleIsTitle efs then 4 else 3))]) := by
  rw [fixElement] at h
  cases hx : clampField efs "x" 1280 with
  | none => rw [hx] at h; simp at h
  | some fs1 =>
      rw [hx] at h
      dsimp only at h
      cases hy : clampField fs1 "y" 720 with
      | none => rw [hy] at h; simp at h
      | some fs2 =>
          rw [hy] at h
          dsimp only at h
          simp only [Option.some.injEq] at h
          subst h
          have frame2 : ∀ k : String, k ≠ "x" → k ≠ "y" →
              getField fs2 k = getField efs k := by
            intro k nx ny
            rw [clampField_getField_ne fs1 fs2 "y" k 720 ny hy,
              clampField_getField_ne efs fs1 "x" k 1280 nx hx]
          have htext2 : typeIs fs2 "text" = true := by
            rw [typeIs_congr efs fs2 "text"
              (frame2 "type" (by decide) (by decide))]
            exact htext
          have hrole2 : roleIsTitle fs2 = roleIsTitle efs :=
            roleIsTitle_congr efs fs2 (frame2 "role" (by decide) (by decide))
          have himgTD : typeIs (textDefaults fs2) "image" = false := by
            rw [typeIs_congr fs2 (textDefaults fs2) "image"
              (getField_textDefaults_ne fs2 "type" (by decide) (by decide)
                (by decide) (by decide) (by decide))]
            exact typeIs_unique fs2 "text" "image" (by decide) htext2
          rw [if_pos htext2, if_neg (by simp [himgTD])]
          obtain ⟨f1, f2, f3, f4, f5⟩ := textDefaults_fields fs2
            (by rw [frame2 "fontSize" (by decide) (by decide)]; exact h1)
            (by rw [frame2 "color" (by decide) (by decide)]; exact h2)
            (by rw [frame2 "fontWeight" (by decide) (by decide)]; exact h3)
            (by rw [frame2 "alignment" (by decide) (by decide)]; exact h4)
            (by rw [frame2 "stroke" (by decide) (by decide)]; exact h5)
  
          rw [hrole2] at f1 f5
          exact ⟨textDefaults fs2, rfl, f1, f2, f3, f4, f5⟩

/-- C6: a text element carrying none of the styling fields is returned by
the validator with `fontSize = 72` and stroke width `4` when its role is
the string `"title"`, and `fontSize = 36` and stroke width `3` otherwise
(in particular when `role` is absent), together with
`color = "#FFFFFF"`, `fontWeight = "bold"`, `alignment = "left"` and
stroke colour `"#000000"`. -/
theorem C6_text_defaults (fs : Fields) (es : List JVal) (d' : JVal)
    (i : Nat) (efs : Fields)
    (hes : getField fs "elements" = some (.arr es))
    (hv : validateDoc (.obj fs) = some d')
    (hlt : i < es.length)
    (hel : es.get ⟨i, hlt⟩ = .obj efs)
    (htext : typeIs efs "text" = true)
    (h1 : getField efs "fontSize" = none) (h2 : getField efs "color" = none)
    (h3 : getField efs "fontWeight" = none)
    (h4 : getField efs "alignment" = none)
    (h5 : getField efs "stroke" = none) :
    ∃ (fs' : Fields) (es' : List JVal) (hlt' : i < es'.length)
      (efs' : Fields),
      d' = .obj fs' ∧ getField fs' "elements" = some (.arr es') ∧
      es'.get ⟨i, hlt'⟩ = .obj efs' ∧
      getField efs' "fontSize" =
          some (.int (if roleIsTitle efs then 72 else 36)) ∧
      getField efs' "color" = some (.str "#FFFFFF") ∧
      getField efs' "fontWeight" = some (.str "bold") ∧
      getField efs' "alignment" = some (.str "left") ∧
      getField efs' "stroke" =
          some (.obj [("color", .str "#000000"),
            ("width", .int (if roleIsTitle efs then 4 else 3))]) := by
  obtain ⟨fs', es', rfl, hget, hall⟩ := validateDoc_elements fs es d' hes hv
  have hlen := hall.length_eq
  have hlt' : i < es'.length := hlen ▸ hlt
  have hR := (List.forall₂_iff_get.mp hall).2 i hlt hlt'
  rw [hel] at hR
  obtain ⟨efs', heq, f1, f2, f3, f4, f5⟩ :=
    fixElement_text efs _ htext h1 h2 h3 h4 h5 hR
  exact ⟨fs', es', hlt', efs', rfl, hget, heq, f1, f2, f3, f4, f5⟩

/-- Witness for C6 at the two concrete inputs of the claim: a bare
`{type: "text"}` element (role absent) and a `{type: "text",
role: "title"}` element. -/
theorem C6_text_defaults_witness :
    (∃ (fs' : Fields) (es' : List JVal) (hlt' : 0 < es'.length)
      (efs' : Fields),
      (JVal.obj [("elements", .arr [.obj [("type", .str "text"),
          ("fontSize", .int 36), ("color", .str "#FFFFFF"),
          ("fontWeight", .str "bold"), ("alignment", .str "left"),
          ("stroke", .obj [("color", .str "#000000"),
            ("width", .int 3)])]]),
        ("background", defaultBg)]) = .obj fs' ∧
      getField fs' "elements" = some (.arr es') ∧
      es'.get ⟨0, hlt'⟩ = .obj efs' ∧
      getField efs' "fontSize" =
          some (.int (if roleIsTitle [("type", JVal.str "text")]
            then 72 else 36)) ∧
      getField efs' "color" = some (.str "#FFFFFF") ∧
      getField efs' "fontWeight" = some (.str "bold") ∧
      getField efs' "alignment" = some (.str "left") ∧
      getField efs' "stroke" =
          some (.obj [("color", .str "#000000"),
            ("width", .int (if roleIsTitle [("type", JVal.str "text")]
              then 4 else 3))])) ∧
    (∃ (fs' : Fields) (es' : List JVal) (hlt' : 0 < es'.length)
      (efs' : Fields),
      (JVal.obj [("elements", .arr [.obj [("type", .str "text"),
          ("role", .str "title"), ("fontSize", .int 72),
          ("color", .str "#FFFFFF"), ("fontWeight", .str "bold"),
          ("alignment", .str "left"),
          ("stroke", .obj [("color", .str "#000000"),
            ("width", .int 4)])]]),
        ("background", defaultBg)]) = .obj fs' ∧
      getField fs' "elements" = some (.arr es') ∧
      es'.get ⟨0, hlt'⟩ = .obj efs' ∧
      getField efs' "fontSize" =
          some (.int (if roleIsTitle [("type", JVal.str "text"),
            ("role", JVal.str "title")] then 72 else 36)) ∧
      getField efs' "color" = some (.str "#FFFFFF") ∧
      getField efs' "fontWeight" = some (.str "bold") ∧
      getField efs' "alignment" = some (.str "left") ∧
      getField efs' "stroke" =
          some (.obj [("color", .str "#000000"),
            ("width", .int (if roleIsTitle [("type", JVal.str "text"),
              ("role", JVal.str "title")] then 4 else 3))])) :=
  ⟨C6_text_defaults [("elements", .arr [.obj [("type", .str "text")]])]
      [.obj [("type", .str "text")]] _ 0 [("type", .str "text")]
      rfl rfl (by decide) rfl rfl rfl rfl rfl rfl rfl,
    C6_text_defaults [("elements", .arr [.obj [("type", .str "text"),
        ("role", .str "title")]])]
      [.obj [("type", .str "text"), ("role", .str "title")]] _ 0
      [("type", .str "text"), ("role", .str "title")]
      rfl rfl (by decide) rfl rfl rfl rfl rfl rfl rfl⟩

/-- C1 counterexample: with `gradientStart = "#FFFFFF"` and the unparsable
`gradientEnd = "zz"`, the background painter does not fall back to a
whole-canvas fill with the start colour; it paints the gradient with
`(0,0,0)` substituted for the bad endpoint, and the painted canvas is not
uniformly the start colour (column 640 of the horizontal gradient is
`(127,127,127)`, not `(255,255,255)`). -/
theorem C1_counterexample :
    hexParse "zz" = none ∧
    drawBackground (.obj [("type", .str "gradient"),
      ("gradientStart", .str "#FFFFFF"), ("gradientEnd", .str "zz"),
      ("gradientDirection", .str "horizontal")]) =
      some (.gradBg (255, 255, 255) (0, 0, 0) (.str "horizontal")) ∧
    gradientColor (255, 255, 255) (0, 0, 0) "horizontal" 640 0 =
      some (127, 127, 127) ∧
    (127, 127, 127) ≠ hexToRgbV (.str "#FFFFFF") := by
  refine ⟨rfl, rfl, ?_, by decide⟩
  show gradientColor (255, 255, 255) (0, 0, 0) "horizontal" 640 0 =
    some (127, 127, 127)
  rw [gradientColor]
  norm_num [lerpChan, pytrunc]

/-- C1 amended: a colour-parse failure on either gradient endpoint does
not trigger the whole-canvas start-colour fallback of line 125; instead
`_hex_to_rgb` fails closed to `(0,0,0)` and the painter still paints a
gradient, with black substituted for the unparsable endpoint. -/
theorem C1_parse_failure_still_gradient (fs : Fields) (s e : String)
    (ht : getField fs "type" = some (.str "gradient"))
    (hstart : getField fs "gradientStart" = some (.str s))
    (hend : getField fs "gradientEnd" = some (.str e)) :
    (hexParse e = none →
      drawBackground (.obj fs) =
        some (.gradBg (hexToRgbV (.str s)) (0, 0, 0)
          ((getField fs "gradientDirection").getD (.str "horizontal")))) ∧
    (hexParse s = none →
      drawBackground (.obj fs) =
        some (.gradBg (0, 0, 0) (hexToRgbV (.str e))
          ((getField fs "gradientDirection").getD (.str "horizontal")))) := by
  constructor
  · intro he
    rw [drawBackground]
    rw [ht, hstart, hend]
    dsimp only [Option.getD]
    rw [show hexToRgbV (.str e) = (0, 0, 0) by rw [hexToRgbV, he]; rfl]
    rfl
  · intro hs
    rw [drawBackground]
    rw [ht, hstart, hend]
    dsimp only [Option.getD]
    rw [show hexToRgbV (.str s) = (0, 0, 0) by rw [hexToRgbV, hs]; rfl]
    rfl

/-- Witness for C1's amended theorem: unparsable start colour `"zz"`, end
colour `"#102030"`, horizontal direction. -/
theorem C1_parse_failure_still_gradient_witness :
    drawBackground (.obj [("type", .str "gradient"),
      ("gradientStart", .str "zz"), ("gradientEnd", .str "#102030"),
      ("gradientDirection", .str "horizontal")]) =
      some (.gradBg (0, 0, 0) (hexToRgbV (.str "#102030"))
        ((getField [("type", JVal.str "gradient"),
          ("gradientStart", JVal.str "zz"),
          ("gradientEnd", JVal.str "#102030"),
          ("gradientDirection", JVal.str "horizontal")]
          "gradientDirection").getD (.str "horizontal"))) :=
  (C1_parse_failure_still_gradient [("type", .str "gradient"),
    ("gradientStart", .str "zz"), ("gradientEnd", .str "#102030"),
    ("gradientDirection", .str "horizontal")] "zz" "#102030"
    rfl rfl rfl).2 rfl

/-- Does exactly one output dimension of the aspect-fit equal its box
counterpart?  (The property claimed for every positive input.) -/
def exactlyOneBoxDim (srcW srcH : Nat) (boxW boxH : Int) : Bool :=
  match aspectFit srcW srcH boxW boxH with
  | some (w, h) => ((w == boxW) && !(h == boxH)) || (!(w == boxW) && (h == boxH))
  | none => false

/-- C5 counterexample: when the source and box aspect ratios are exactly
equal — a square subject in a square box — both output dimensions equal
their box counterparts, so "exactly one of the two output dimensions
equals its box counterpart" fails: `aspectFit(100,100,300,300) =
(300,300)`. -/
theorem C5_counterexample :
    aspectFit 100 100 300 300 = some (300, 300) ∧
    exactlyOneBoxDim 100 100 300 300 = false := by
  have hfit : aspectFit 100 100 300 300 = some (300, 300) := by
    rw [aspectFit]
    norm_num [pytrunc]
  refine ⟨hfit, ?_⟩
  rw [exactlyOneBoxDim, hfit]
  rfl

/-- C5 amended: for positive source and box dimensions, the aspect-fit
resize (i) fits inside the box, (ii) anchors at least one output dimension
to its box counterpart, (iii) anchors both exactly when the source and box
aspect ratios are equal and exactly one otherwise, and (iv) preserves the
source aspect ratio up to the integer truncation of the non-anchored
dimension. -/
theorem C5_aspectFit_amended (srcW srcH : Nat) (boxW boxH outW outH : Int)
    (hsw : 0 < srcW) (hsh : 0 < srcH) (hbw : 0 < boxW) (hbh : 0 < boxH)
    (h : aspectFit srcW srcH boxW boxH = some (outW, outH)) :
    (0 ≤ outW ∧ outW ≤ boxW ∧ 0 ≤ outH ∧ outH ≤ boxH) ∧
    (outW = boxW ∨ outH = boxH) ∧
    ((srcW : Int) * boxH = (srcH : Int) * boxW →
      outW = boxW ∧ outH = boxH) ∧
    ((srcW : Int) * boxH ≠ (srcH : Int) * boxW →
      ¬(outW = boxW ∧ outH = boxH)) ∧
    (outW * (srcH : Int) - outH * (srcW : Int) < (srcW : Int) ∧
      outH * (srcW : Int) - outW * (srcH : Int) < (srcH : Int)) := by
  have hsW0 : (0:ℚ) < (srcW:ℚ) := by exact_mod_cast hsw
  have hsH0 : (0:ℚ) < (srcH:ℚ) := by exact_mod_cast hsh
  have hbW0 : (0:ℚ) < (boxW:ℚ) := by exact_mod_cast hbw
  have hbH0 : (0:ℚ) < (boxH:ℚ) := by exact_mod_cast hbh
  rw [aspectFit, if_neg (by omega)] at h
  dsimp only at h
  by_cases hcond : (srcW:ℚ)/(srcH:ℚ) > (boxW:ℚ)/(boxH:ℚ)
  · rw [if_pos hcond,
      if_neg (ne_of_gt (div_pos hsW0 hsH0))] at h
    simp only [Option.some.injEq, Prod.mk.injEq] at h
    obtain ⟨h1, h2⟩ := h
    subst h1
    subst h2
    set q : ℚ := (boxW:ℚ)/((srcW:ℚ)/(srcH:ℚ)) with hqdef
    have hq0 : 0 < q := div_pos hbW0 (div_pos hsW0 hsH0)
    have hfl : pytrunc q = ⌊q⌋ := by rw [pytrunc, if_pos hq0.le]
    have hqs : q * (srcW:ℚ) = (boxW:ℚ) * (srcH:ℚ) := by
      rw [hqdef, div_div_eq_mul_div, div_mul_cancel₀ _ (ne_of_gt hsW0)]
    have hcross : (boxW:ℚ) * (srcH:ℚ) < (srcW:ℚ) * (boxH:ℚ) :=
      (div_lt_div_iff₀ hbH0 hsH0).mp hcond
    have hqlt : q < (boxH:ℚ) := by
      rw [hqdef, div_lt_iff₀ (div_pos hsW0 hsH0), ← mul_div_assoc,
        lt_div_iff₀ hsH0]
      linarith [hcross]
    have hflnn : 0 ≤ ⌊q⌋ := Int.floor_nonneg.mpr hq0.le
    have hfllt : ⌊q⌋ < boxH := Int.floor_lt.mpr hqlt
    have hfloor1 : q - 1 < (⌊q⌋:ℚ) := Int.sub_one_lt_floor q
    have hfloor2 : (⌊q⌋:ℚ) ≤ q := Int.floor_le q
    have e1 : (q - 1) * (srcW:ℚ) < (⌊q⌋:ℚ) * (srcW:ℚ) :=
      mul_lt_mul_of_pos_right hfloor1 hsW0
    have e2 : (q - 1) * (srcW:ℚ) = (boxW:ℚ) * (srcH:ℚ) - (srcW:ℚ) := by
      rw [sub_mul, one_mul, hqs]
    have e3 : (⌊q⌋:ℚ) * (srcW:ℚ) ≤ (boxW:ℚ) * (srcH:ℚ) := by
      calc (⌊q⌋:ℚ) * (srcW:ℚ) ≤ q * (srcW:ℚ) :=
            mul_le_mul_of_nonneg_right hfloor2 hsW0.le
        _ = (boxW:ℚ) * (srcH:ℚ) := hqs
    have hp1Q : (boxW:ℚ) * (srcH:ℚ) - (⌊q⌋:ℚ) * (srcW:ℚ) < (srcW:ℚ) := by
      linarith [e1, e2]
    rw [hfl]
    refine ⟨⟨hbw.le, le_refl _, hflnn, hfllt.le⟩, Or.inl rfl, ?_, ?_, ?_, ?_⟩
    · intro heq
      exfalso
      have heqQ : (srcW:ℚ) * (boxH:ℚ) = (srcH:ℚ) * (boxW:ℚ) := by
        exact_mod_cast heq
      linarith [hcross, heqQ]
    · intro hne hand
      exact absurd hand.2 (ne_of_lt hfllt)
    · exact_mod_cast hp1Q
    · have : (⌊q⌋:ℚ) * (srcW:ℚ) - (boxW:ℚ) * (srcH:ℚ) < (srcH:ℚ) := by
        linarith [e3, hsH0]
      exact_mod_cast this
  · rw [if_neg hcond] at h
    simp only [Option.some.injEq, Prod.mk.injEq] at h
    obtain ⟨h1, h2⟩ := h
    subst h1
    subst h2
    set q : ℚ := (boxH:ℚ) * ((srcW:ℚ)/(srcH:ℚ)) with hqdef
    have hq0 : 0 < q := mul_pos hbH0 (div_pos hsW0 hsH0)
    have hfl : pytrunc q = ⌊q⌋ := by rw [pytrunc, if_pos hq0.le]
    have hqs : q * (srcH:ℚ) = (boxH:ℚ) * (srcW:ℚ) := by
      rw [hqdef, mul_assoc, div_mul_cancel₀ _ (ne_of_gt hsH0)]
    have hle : (srcW:ℚ)/(srcH:ℚ) ≤ (boxW:ℚ)/(boxH:ℚ) := not_lt.mp hcond
    have hcross : (srcW:ℚ) * (boxH:ℚ) ≤ (boxW:ℚ) * (srcH:ℚ) :=
      (div_le_div_iff₀ hsH0 hbH0).mp hle
    have hqle : q ≤ (boxW:ℚ) := by
      have hmul : q * (srcH:ℚ) ≤ (boxW:ℚ) * (srcH:ℚ) := by
        rw [hqs]
        linarith [hcross]
      exact le_of_mul_le_mul_right hmul hsH0
    have hflnn : 0 ≤ ⌊q⌋ := Int.floor_nonneg.mpr hq0.le
    have hflle : ⌊q⌋ ≤ boxW := by
      have := Int.floor_le_floor hqle
      rwa [Int.floor_intCast] at this
    have hfloor1 : q - 1 < (⌊q⌋:ℚ) := Int.sub_one_lt_floor q
    have hfloor2 : (⌊q⌋:ℚ) ≤ q := Int.floor_le q
    have e1 : (q - 1) * (srcH:ℚ) < (⌊q⌋:ℚ) * (srcH:ℚ) :=
      mul_lt_mul_of_pos_right hfloor1 hsH0
    have e2 : (q - 1) * (srcH:ℚ) = (boxH:ℚ) * (srcW:ℚ) - (srcH:ℚ) := by
      rw [sub_mul, one_mul, hqs]
    have e3 : (⌊q⌋:ℚ) * (srcH:ℚ) ≤ (boxH:ℚ) * (srcW:ℚ) := by
      calc (⌊q⌋:ℚ) * (srcH:ℚ) ≤ q * (srcH:ℚ) :=
            mul_le_mul_of_nonneg_right hfloor2 hsH0.le
        _ = (boxH:ℚ) * (srcW:ℚ) := hqs
    rw [hfl]
    refine ⟨⟨hflnn, hflle, hbh.le, le_refl _⟩, Or.inr rfl, ?_, ?_, ?_, ?_⟩
    · intro heq
      refine ⟨?_, rfl⟩
      have heqQ : (srcW:ℚ) * (boxH:ℚ) = (srcH:ℚ) * (boxW:ℚ) := by
        exact_mod_cast heq
      have hqb : q = (boxW:ℚ) := by
        have : q * (srcH:ℚ) = (boxW:ℚ) * (srcH:ℚ) := by
          rw [hqs]
          linarith [heqQ]
        exact mul_right_cancel₀ (ne_of_gt hsH0) this
      rw [hqb, Int.floor_intCast]
    · intro hne hand
      have hneQ : (srcW:ℚ) * (boxH:ℚ) ≠ (srcH:ℚ) * (boxW:ℚ) := by
        intro hq
        exact hne (by exact_mod_cast hq)
      have hstrict : (srcW:ℚ) * (boxH:ℚ) < (boxW:ℚ) * (srcH:ℚ) :=
        lt_of_le_of_ne hcross (by
          intro hq
          exact hneQ (by linarith [hq]))
      have hqltW : q < (boxW:ℚ) := by
        have hmul : q * (srcH:ℚ) < (boxW:ℚ) * (srcH:ℚ) := by
          rw [hqs]
          linarith [hstrict]
        exact lt_of_mul_lt_mul_right hmul hsH0.le
      have : ⌊q⌋ < boxW := Int.floor_lt.mpr hqltW
      exact absurd hand.1 (ne_of_lt this)
    · have : (⌊q⌋:ℚ) * (srcH:ℚ) - (boxH:ℚ) * (srcW:ℚ) < (srcW:ℚ) := by
        linarith [e3, hsW0]
      exact_mod_cast this
    · have hp1Q : (boxH:ℚ) * (srcW:ℚ) - (⌊q⌋:ℚ) * (srcH:ℚ) < (srcH:ℚ) := by
        linarith [e1, e2]
      exact_mod_cast hp1Q

/-- Witness for C5's amended theorem at the spec's own example:
`aspectFit(400,200,300,300) = (300,150)`. -/
theorem C5_aspectFit_amended_witness :
    (0 ≤ (300:Int) ∧ (300:Int) ≤ 300 ∧ 0 ≤ (150:Int) ∧ (150:Int) ≤ 300) ∧
    ((300:Int) = 300 ∨ (150:Int) = 300) ∧
    (((400:Nat) : Int) * 300 = ((200:Nat) : Int) * 300 →
      (300:Int) = 300 ∧ (150:Int) = 300) ∧
    (((400:Nat) : Int) * 300 ≠ ((200:Nat) : Int) * 300 →
      ¬((300:Int) = 300 ∧ (150:Int) = 300)) ∧
    ((300:Int) * ((200:Nat) : Int) - 150 * ((400:Nat) : Int) <
        ((400:Nat) : Int) ∧
      (150:Int) * ((400:Nat) : Int) - 300 * ((200:Nat) : Int) <
        ((200:Nat) : Int)) :=
  C5_aspectFit_amended 400 200 300 300 300 150 (by decide) (by decide)
    (by decide) (by decide) (by rw [aspectFit]; norm_num [pytrunc])

/-! ## Paint order, determinism and rotation-independence of the
renderer -/

/-- `element.get('type') == t` for a whole element value. -/
def typeIsV (e : JVal) (t : String) : Bool :=
  match e with
  | .obj fs => typeIs fs t
  | _ => false

/-- The operations a loop body contributes over a list, ignoring non-dict
entries (used to reason about `elemLoop` on well-formed lists). -/
def opsAll (f : Fields → List ElemOp) : List JVal → List ElemOp
  | [] => []
  | .obj fs :: rest => f fs ++ opsAll f rest
  | _ :: rest => opsAll f rest

theorem elemLoop_allObj (f : Fields → List ElemOp) :
    ∀ {l : List JVal}, (∀ e ∈ l, ∃ efs, e = .obj efs) →
      elemLoop f l = some (opsAll f l) := by
  intro l
  induction l with
  | nil => intro _; rfl
  | cons e rest ih =>
      intro hobj
      obtain ⟨efs, rfl⟩ := hobj e (List.mem_cons_self e rest)
      rw [elemLoop, opsAll, ih (fun e he => hobj e (List.mem_cons_of_mem _ he))]
      rfl

theorem opsAll_append (f : Fields → List ElemOp) (a b : List JVal) :
    opsAll f (a ++ b) = opsAll f a ++ opsAll f b := by
  induction a with
  | nil => simp [opsAll]
  | cons e rest ih => cases e <;> simp [opsAll, ih]

theorem opsAll_filter_of_vanish (f : Fields → List ElemOp) (p : JVal → Bool)
    (l : List JVal) (hf : ∀ efs, p (.obj efs) = false → f efs = []) :
    opsAll f (l.filter p) = opsAll f l := by
  induction l with
  | nil => rfl
  | cons e rest ih =>
      by_cases hp : p e
      · rw [List.filter_cons_of_pos hp]
        cases e <;> simp [opsAll, ih]
      · rw [List.filter_cons_of_neg hp]
        cases e with
        | obj efs =>
            rw [opsAll, hf efs (by simpa using hp), ih]
            rfl
        | str s => simp [opsAll, ih]
        | int n => simp [opsAll, ih]
        | arr a => simp [opsAll, ih]

theorem opsAll_nil_of (f : Fields → List ElemOp) :
    ∀ (l : List JVal), (∀ efs, (JVal.obj efs) ∈ l → f efs = []) →
      opsAll f l = [] := by
  intro l
  induction l with
  | nil => intro _; rfl
  | cons e rest ih =>
      intro hf
      cases e with
      | obj efs =>
          rw [opsAll, hf efs (List.mem_cons_self _ _),
            ih (fun g hg => hf g (List.mem_cons_of_mem _ hg))]
          rfl
      | str s => exact ih (fun g hg => hf g (List.mem_cons_of_mem _ hg))
      | int n => exact ih (fun g hg => hf g (List.mem_cons_of_mem _ hg))
      | arr a => exact ih (fun g hg => hf g (List.mem_cons_of_mem _ hg))

theorem imagePassBody_of_not_image (s? : Option Subject) (efs : Fields)
    (h : typeIs efs "image" = false) : imagePassBody s? efs = [] := by
  rw [imagePassBody.eq_def, if_neg (by simp [h])]

theorem textPassBody_of_not_text (env : FontEnv) (efs : Fields)
    (h : typeIs efs "text" = false) : textPassBody env efs = [] := by
  rw [textPassBody.eq_def, if_neg (by simp [h])]

/-- C7: the renderer paints in two fixed passes — all image-typed elements
first, then all text-typed elements — so rendering a document equals
rendering the same document with its element list rearranged to put the
image elements (in their relative order) before the text elements: a text
element is never overdrawn by an image element declared after it. -/
theorem C7_paint_order (env : FontEnv) (s? : Option Subject) (fs : Fields)
    (es : List JVal)
    (hes : getField fs "elements" = some (.arr es))
    (hobj : ∀ e ∈ es, ∃ efs, e = .obj efs) :
    renderThumbnail env (.obj fs) s? =
      renderThumbnail env (.obj (setField fs "elements"
        (.arr (es.filter (fun e => typeIsV e "image") ++
          es.filter (fun e => typeIsV e "text"))))) s? := by
  set esI := es.filter (fun e => typeIsV e "image") with hesI
  set esT := es.filter (fun e => typeIsV e "text") with hesT
  have hobjI : ∀ e ∈ esI, ∃ efs, e = .obj efs := fun e he =>
    hobj e (List.mem_of_mem_filter he)
  have hobjT : ∀ e ∈ esT, ∃ efs, e = .obj efs := fun e he =>
    hobj e (List.mem_of_mem_filter he)
  have hobj2 : ∀ e ∈ esI ++ esT, ∃ efs, e = .obj efs := by
    intro e he
    rcases List.mem_append.mp he with h | h
    · exact hobjI e h
    · exact hobjT e h
  have hImem : ∀ efs, (JVal.obj efs) ∈ esI → typeIs efs "image" = true := by
    intro efs hmem
    have := List.of_mem_filter hmem
    simpa [typeIsV] using this
  have hTmem : ∀ efs, (JVal.obj efs) ∈ esT → typeIs efs "text" = true := by
    intro efs hmem
    have := List.of_mem_filter hmem
    simpa [typeIsV] using this
  have hp1 : renderPass1 s? (esI ++ esT) = renderPass1 s? es := by
    rw [renderPass1, elemLoop_allObj _ hobj2, elemLoop_allObj _ hobj,
      opsAll_append]
    have hA : opsAll (imagePassBody s?) esI = opsAll (imagePassBody s?) es := by
      rw [hesI]
      exact opsAll_filter_of_vanish _ _ es (fun efs hfalse =>
        imagePassBody_of_not_image s? efs (by simpa [typeIsV] using hfalse))
    have hB : opsAll (imagePassBody s?) esT = [] :=
      opsAll_nil_of _ esT (fun efs hmem =>
        imagePassBody_of_not_image s? efs
          (typeIs_unique efs "text" "image" (by decide) (hTmem efs hmem)))
    rw [hA, hB, List.append_nil]
  have hp2 : renderPass2 env (esI ++ esT) = renderPass2 env es := by
    rw [renderPass2, elemLoop_allObj _ hobj2, elemLoop_allObj _ hobj,
      opsAll_append]
    have hA : opsAll (textPassBody env) esI = [] :=
      opsAll_nil_of _ esI (fun efs hmem =>
        textPassBody_of_not_text env efs
          (typeIs_unique efs "image" "text" (by decide) (hImem efs hmem)))
    have hB : opsAll (textPassBody env) esT = opsAll (textPassBody env) es := by
      rw [hesT]
      exact opsAll_filter_of_vanish _ _ es (fun efs hfalse =>
        textPassBody_of_not_text env efs (by simpa [typeIsV] using hfalse))
    rw [hA, hB, List.nil_append]
  rw [renderThumbnail, renderThumbnail,
    getField_setField_ne fs "elements" "background" _ (by decide)]
  cases drawBackground ((getField fs "background").getD (.obj [])) with
  | none => rfl
  | some bg =>
      dsimp only
      rw [elementsOf, hes, elementsOf, getField_setField_self]
      dsimp only
      rw [hp1, hp2]

/-- A fixed drawing environment for concrete instantiations: every string
measures 100x20 at any font, and a colour value is accepted exactly when
it is an integer (a direct ink value) or a `#RRGGBB`-style string (a
stand-in for the library's colour grammar; the instantiations below rely
only on `"#000000"` being accepted and `"zz"` rejected, both true of the
imaging library). -/
def constEnv : FontEnv :=
  ⟨fun _ _ _ => (100, 20),
    fun v => match v with
      | .str s => (hexParse s).isSome
      | .int _ => true
      | _ => false⟩

/-- Witness for C7 at a document that declares a text element before an
image element. -/
theorem C7_paint_order_witness :
    renderThumbnail constEnv (.obj [("elements", .arr [
        .obj [("type", .str "text"), ("content", .str "hello")],
        .obj [("type", .str "image"), ("width", .int 400),
          ("height", .int 400)]])]) (some ⟨100, 100, false⟩) =
      renderThumbnail constEnv (.obj (setField
        [("elements", .arr [
          .obj [("type", .str "text"), ("content", .str "hello")],
          .obj [("type", .str "image"), ("width", .int 400),
            ("height", .int 400)]])] "elements"
        (.arr ([.obj [("type", .str "text"), ("content", .str "hello")],
            .obj [("type", .str "image"), ("width", .int 400),
              ("height", .int 400)]].filter (fun e => typeIsV e "image") ++
          [.obj [("type", .str "text"), ("content", .str "hello")],
            .obj [("type", .str "image"), ("width", .int 400),
              ("height", .int 400)]].filter (fun e => typeIsV e "text")))))
        (some ⟨100, 100, false⟩) :=
  C7_paint_order constEnv (some ⟨100, 100, false⟩)
    [("elements", .arr [
      .obj [("type", .str "text"), ("content", .str "hello")],
      .obj [("type", .str "image"), ("width", .int 400),
        ("height", .int 400)]])]
    [.obj [("type", .str "text"), ("content", .str "hello")],
      .obj [("type", .str "image"), ("width", .int 400),
        ("height", .int 400)]]
    rfl
    (by
      intro e he
      simp only [List.mem_cons, List.not_mem_nil, or_false] at he
      rcases he with rfl | rfl
      · exact ⟨_, rfl⟩
      · exact ⟨_, rfl⟩)

/-- C8: the renderer is a pure function of the layout document, the
subject image and the (process-fixed) font environment: equal inputs give
byte-identical paint traces. -/
theorem C8_render_deterministic (env : FontEnv) (l1 l2 : JVal)
    (s1 s2 : Option Subject) (hl : l1 = l2) (hs : s1 = s2) :
    renderThumbnail env l1 s1 = renderThumbnail env l2 s2 := by
  subst hl
  subst hs
  rfl

/-- Witness for C8 at a concrete layout and subject. -/
theorem C8_render_deterministic_witness :
    renderThumbnail constEnv (.obj [("background",
        .obj [("type", .str "solid"), ("color", .str "#123456")]),
      ("elements", .arr [.obj [("type", .str "text"),
        ("content", .str "hi"), ("x", .int 40), ("y", .int 60)]])])
      (some ⟨64, 32, true⟩) =
    renderThumbnail constEnv (.obj [("background",
        .obj [("type", .str "solid"), ("color", .str "#123456")]),
      ("elements", .arr [.obj [("type", .str "text"),
        ("content", .str "hi"), ("x", .int 40), ("y", .int 60)]])])
      (some ⟨64, 32, true⟩) :=
  C8_render_deterministic constEnv _ _ _ _ rfl rfl

/-- Erase the `rotation` key of an element dict (identity on anything
else): two elements with equal erasure differ at most in `rotation`. -/
def eraseRot : JVal → JVal
  | .obj fs => .obj (fs.filter (fun p => !(p.1 == "rotation")))
  | e => e

/-- Two documents' element lists are rotation-equivalent: pointwise equal,
except that image-typed elements may differ in their `rotation` value. -/
def rotRel (a b : JVal) : Prop :=
  a = b ∨ (typeIsV a "image" = true ∧ eraseRot a = eraseRot b)

theorem getField_filterRot (fs : Fields) (k : String) (h : k ≠ "rotation") :
    getField (fs.filter (fun p => !(p.1 == "rotation"))) k = getField fs k := by
  induction fs with
  | nil => rfl
  | cons p rest ih =>
      obtain ⟨k0, v⟩ := p
      by_cases h0 : k0 = "rotation"
      · subst h0
        rw [List.filter_cons_of_neg (by simp)]
        have hne : ¬ ("rotation" = k) := fun hh => h hh.symm
        simp [getField, hne, ih]
      · rw [List.filter_cons_of_pos (by simp [h0])]
        by_cases h1 : k0 = k <;> simp [getField, h1, ih]

theorem typeIsV_obj (e : JVal) (t : String) (h : typeIsV e t = true) :
    ∃ fs, e = .obj fs := by
  cases e with
  | obj fs => exact ⟨fs, rfl⟩
  | str s => simp [typeIsV] at h
  | int n => simp [typeIsV] at h
  | arr a => simp [typeIsV] at h

theorem eraseRot_obj2 (afs : Fields) (b : JVal)
    (h : eraseRot (.obj afs) = eraseRot b) : ∃ bfs, b = .obj bfs := by
  cases b with
  | obj bfs => exact ⟨bfs, rfl⟩
  | str s => simp [eraseRot] at h
  | int n => simp [eraseRot] at h
  | arr l => simp [eraseRot] at h

theorem drawImage_congr (s : Subject) (fs1 fs2 : Fields)
    (hget : ∀ k, k ≠ "rotation" → getField fs1 k = getField fs2 k) :
    drawImage s fs1 = drawImage s fs2 := by
  simp only [drawImage, intField]
  rw [hget "x" (by decide), hget "y" (by decide),
    hget "width" (by decide), hget "height" (by decide)]

theorem drawText_congr (env : FontEnv) (fs1 fs2 : Fields)
    (hget : ∀ k, k ≠ "rotation" → getField fs1 k = getField fs2 k) :
    drawText env fs1 = drawText env fs2 := by
  simp only [drawText, strField, strokeField, intField]
  rw [hget "content" (by decide), hget "x" (by decide),
    hget "y" (by decide), hget "fontSize" (by decide),
    hget "fontWeight" (by decide), hget "color" (by decide),
    hget "alignment" (by decide), hget "stroke" (by decide)]

theorem imagePassBody_congr (s? : Option Subject) (afs bfs : Fields)
    (hget : ∀ k, k ≠ "rotation" → getField afs k = getField bfs k) :
    imagePassBody s? afs = imagePassBody s? bfs := by
  have htype : typeIs afs "image" = typeIs bfs "image" :=
    typeIs_congr bfs afs "image" (hget "type" (by decide))
  cases s? with
  | none => rw [imagePassBody.eq_def, imagePassBody.eq_def, htype]
  | some s =>
      rw [imagePassBody.eq_def, imagePassBody.eq_def, htype]
      dsimp only
      rw [drawImage_congr s afs bfs hget]

theorem textPassBody_congr (env : FontEnv) (afs bfs : Fields)
    (hget : ∀ k, k ≠ "rotation" → getField afs k = getField bfs k) :
    textPassBody env afs = textPassBody env bfs := by
  have htype : typeIs afs "text" = typeIs bfs "text" :=
    typeIs_congr bfs afs "text" (hget "type" (by decide))
  rw [textPassBody.eq_def, textPassBody.eq_def, htype,
    drawText_congr env afs bfs hget]

theorem elemLoop_rotRel (f : Fields → List ElemOp)
    (hf : ∀ afs bfs, (∀ k, k ≠ "rotation" →
      getField afs k = getField bfs k) → f afs = f bfs) :
    ∀ {l1 l2 : List JVal}, List.Forall₂ rotRel l1 l2 →
      elemLoop f l1 = elemLoop f l2 := by
  intro l1 l2 hrel
  induction hrel with
  | nil => rfl
  | @cons a b l1' l2' hab htail ih =>
      rcases hab with rfl | ⟨himg, herase⟩
      · cases a with
        | obj afs => rw [elemLoop, elemLoop, ih]
        | str s => rfl
        | int n => rfl
        | arr l => rfl
      · obtain ⟨afs, rfl⟩ := typeIsV_obj a "image" himg
        obtain ⟨bfs, rfl⟩ := eraseRot_obj2 afs b herase
        have hfil : afs.filter (fun p => !(p.1 == "rotation")) =
            bfs.filter (fun p => !(p.1 == "rotation")) := by
          simpa [eraseRot] using herase
        have hgets : ∀ k, k ≠ "rotation" →
            getField afs k = getField bfs k := by
          intro k hk
          rw [← getField_filterRot afs k hk, hfil, getField_filterRot bfs k hk]
        rw [elemLoop, elemLoop, hf afs bfs hgets, ih]

/-- C10: the renderer never reads the `rotation` field — two layout
documents with the same background and rotation-equivalent element lists
(image elements may carry different rotation values, everything else
equal) render to identical canvases. -/
theorem C10_rotation_independent (env : FontEnv) (s? : Option Subject)
    (fs1 fs2 : Fields) (es1 es2 : List JVal)
    (hbg : getField fs1 "background" = getField fs2 "background")
    (he1 : getField fs1 "elements" = some (.arr es1))
    (he2 : getField fs2 "elements" = some (.arr es2))
    (hrel : List.Forall₂ rotRel es1 es2) :
    renderThumbnail env (.obj fs1) s? = renderThumbnail env (.obj fs2) s? := by
  rw [renderThumbnail, renderThumbnail, hbg]
  cases drawBackground ((getField fs2 "background").getD (.obj [])) with
  | none => rfl
  | some bg =>
      dsimp only
      rw [elementsOf, he1, elementsOf, he2]
      dsimp only
      have hp1 : renderPass1 s? es1 = renderPass1 s? es2 :=
        elemLoop_rotRel _ (fun afs bfs hg => imagePassBody_congr s? afs bfs hg)
          hrel
      have hp2 : renderPass2 env es1 = renderPass2 env es2 :=
        elemLoop_rotRel _ (fun afs bfs hg => textPassBody_congr env afs bfs hg)
          hrel
      rw [hp1, hp2]

/-- Witness for C10: the same document with `rotation: 45` versus
`rotation: 90` on its image element. -/
theorem C10_rotation_independent_witness :
    renderThumbnail constEnv (.obj [("background",
        .obj [("type", .str "solid")]),
      ("elements", .arr [.obj [("type", .str "image"), ("x", .int 10),
        ("y", .int 20), ("width", .int 300), ("height", .int 200),
        ("rotation", .int 45)]])]) (some ⟨50, 40, true⟩) =
      renderThumbnail constEnv (.obj [("background",
          .obj [("type", .str "solid")]),
        ("elements", .arr [.obj [("type", .str "image"), ("x", .int 10),
          ("y", .int 20), ("width", .int 300), ("height", .int 200),
          ("rotation", .int 90)]])]) (some ⟨50, 40, true⟩) :=
  C10_rotation_independent constEnv (some ⟨50, 40, true⟩) _ _ _ _
    rfl rfl rfl
    (List.Forall₂.cons (Or.inr ⟨rfl, rfl⟩) List.Forall₂.nil)

/-! ## Per-element error recovery (text pass) -/

theorem elemLoop_middle_nil (f : Fields → List ElemOp)
    (pre post : List JVal) (efs : Fields) (hf : f efs = []) :
    elemLoop f (pre ++ .obj efs :: post) = elemLoop f (pre ++ post) := by
  induction pre with
  | nil =>
      rw [List.nil_append, List.nil_append, elemLoop, hf]
      cases elemLoop f post <;> rfl
  | cons e rest ih =>
      cases e with
      | obj gfs =>
          rw [List.cons_append, List.cons_append, elemLoop, elemLoop, ih]
      | str s => rfl
      | int n => rfl
      | arr a => rfl

theorem elemLoop_append2 (f : Fields → List ElemOp) :
    ∀ (a : List JVal) {x : List ElemOp} (b : List JVal) {y : List ElemOp},
      elemLoop f a = some x → elemLoop f b = some y →
      elemLoop f (a ++ b) = some (x ++ y) := by
  intro a
  induction a with
  | nil =>
      intro x b y ha hb
      simp only [elemLoop, Option.some.injEq] at ha
      subst ha
      simpa using hb
  | cons e rest ih =>
      intro x b y ha hb
      cases e with
      | obj efs =>
          rw [elemLoop] at ha
          cases hrest : elemLoop f rest with
          | none => rw [hrest] at ha; simp at ha
          | some ops' =>
              rw [hrest] at ha
              simp only [Option.map_some', Option.some.injEq] at ha
              subst ha
              rw [List.cons_append, elemLoop, ih b hrest hb]
              simp [List.append_assoc]
      | str s => simp [elemLoop] at ha
      | int n => simp [elemLoop] at ha
      | arr l => simp [elemLoop] at ha

/-- C4 counterexample: a text element with a valid nonzero stroke and an
unparsable fill colour is not skipped.  The stroke offset passes paint
successfully; only the final fill call raises, and the caught error leaves
the stroke passes on the canvas, so the render differs from the render of
the same document without that element (while the remaining element is
still painted in both). -/
theorem C4_counterexample :
    renderThumbnail constEnv (.obj [("elements", .arr [
        .obj [("type", .str "text"), ("content", .str "bad"),
          ("color", .str "zz"),
          ("stroke", .obj [("color", .str "#000000"), ("width", .int 1)])],
        .obj [("type", .str "text"), ("content", .str "good one")]])])
      none =
      some ⟨.solidBg (.str "#FFFFFF"),
        [.textPaint 0 0 100 20 "bad" (.int 48) (.str "normal") (.str "zz")
          (.str "#000000") 1 false,
        .textPaint 0 0 100 20 "good one" (.int 48) (.str "normal")
          (.str "#000000") (.str "#000000") 0 true]⟩ ∧
    renderThumbnail constEnv (.obj [("elements", .arr [
        .obj [("type", .str "text"), ("content", .str "good one")]])])
      none =
      some ⟨.solidBg (.str "#FFFFFF"),
        [.textPaint 0 0 100 20 "good one" (.int 48) (.str "normal")
          (.str "#000000") (.str "#000000") 0 true]⟩ ∧
    renderThumbnail constEnv (.obj [("elements", .arr [
        .obj [("type", .str "text"), ("content", .str "bad"),
          ("color", .str "zz"),
          ("stroke", .obj [("color", .str "#000000"), ("width", .int 1)])],
        .obj [("type", .str "text"), ("content", .str "good one")]])])
      none ≠
      renderThumbnail constEnv (.obj [("elements", .arr [
        .obj [("type", .str "text"), ("content", .str "good one")]])])
      none := by
  refine ⟨rfl, rfl, ?_⟩
  intro h
  rw [show renderThumbnail constEnv (.obj [("elements", .arr [
        .obj [("type", .str "text"), ("content", .str "bad"),
          ("color", .str "zz"),
          ("stroke", .obj [("color", .str "#000000"), ("width", .int 1)])],
        .obj [("type", .str "text"), ("content", .str "good one")]])])
      none =
      some ⟨.solidBg (.str "#FFFFFF"),
        [.textPaint 0 0 100 20 "bad" (.int 48) (.str "normal") (.str "zz")
          (.str "#000000") 1 false,
        .textPaint 0 0 100 20 "good one" (.int 48) (.str "normal")
          (.str "#000000") (.str "#000000") 0 true]⟩ from rfl,
    show renderThumbnail constEnv (.obj [("elements", .arr [
        .obj [("type", .str "text"), ("content", .str "good one")]])])
      none =
      some ⟨.solidBg (.str "#FFFFFF"),
        [.textPaint 0 0 100 20 "good one" (.int 48) (.str "normal")
          (.str "#000000") (.str "#000000") 0 true]⟩ from rfl] at h
  simp at h

/-- C4 amended: any failure while drawing a text element is caught inside
`_draw_text_with_effects` and never aborts the render: whenever the rest
of the document renders, the whole document renders, with the surrounding
elements painted exactly as they are without the failing element.  The
failing element itself contributes exactly `(drawText env efs).toList`:
nothing when the failure precedes its first paint call (the element is
fully skipped), and its stroke passes alone when the fill colour is
rejected after the stroke passes painted (a partially painted, not
skipped, element). -/
theorem C4_failure_contained (env : FontEnv) (s? : Option Subject)
    (fs : Fields) (pre post : List JVal) (efs : Fields)
    (bg : BgPaint) (imgOps tPre tPost : List ElemOp)
    (hes : getField fs "elements" = some (.arr (pre ++ .obj efs :: post)))
    (htext : typeIs efs "text" = true)
    (hbg : drawBackground ((getField fs "background").getD (.obj [])) =
      some bg)
    (hp1 : renderPass1 s? (pre ++ post) = some imgOps)
    (hpre : renderPass2 env pre = some tPre)
    (hpost : renderPass2 env post = some tPost) :
    renderThumbnail env (.obj fs) s? =
      some ⟨bg, imgOps ++ (tPre ++ ((drawText env efs).toList ++ tPost))⟩ ∧
    renderThumbnail env (.obj (setField fs "elements"
        (.arr (pre ++ post)))) s? =
      some ⟨bg, imgOps ++ (tPre ++ tPost)⟩ := by
  rw [renderPass2] at hpre hpost
  rw [renderPass1] at hp1
  have hbody : textPassBody env efs = (drawText env efs).toList := by
    rw [textPassBody.eq_def, if_pos htext]
  have hmid : elemLoop (textPassBody env) (.obj efs :: post) =
      some ((drawText env efs).toList ++ tPost) := by
    rw [elemLoop, hpost, hbody]
    rfl
  have hpass2full : elemLoop (textPassBody env) (pre ++ .obj efs :: post) =
      some (tPre ++ ((drawText env efs).toList ++ tPost)) :=
    elemLoop_append2 _ pre _ hpre hmid
  have hpass2without : elemLoop (textPassBody env) (pre ++ post) =
      some (tPre ++ tPost) :=
    elemLoop_append2 _ pre _ hpre hpost
  have hp1full : elemLoop (imagePassBody s?) (pre ++ .obj efs :: post) =
      some imgOps := by
    rw [elemLoop_middle_nil _ pre post efs
      (imagePassBody_of_not_image s? efs
        (typeIs_unique efs "text" "image" (by decide) htext))]
    exact hp1
  constructor
  · rw [renderThumbnail, hbg]
    dsimp only
    rw [elementsOf, hes]
    dsimp only
    rw [renderPass1, renderPass2, hp1full, hpass2full]
  · rw [renderThumbnail,
      getField_setField_ne fs "elements" "background" _ (by decide), hbg]
    dsimp only
    rw [elementsOf, getField_setField_self]
    dsimp only
    rw [renderPass1, renderPass2, hp1, hpass2without]

/-- Witness for C4's amended theorem at the counterexample's document: the
partially painted element contributes exactly its own trace entry while
the good elements around it are painted as without it. -/
theorem C4_failure_contained_witness :
    renderThumbnail constEnv (.obj [("elements", .arr [
        .obj [("type", .str "text"), ("content", .str "good one")],
        .obj [("type", .str "text"), ("content", .str "bad"),
          ("color", .str "zz"),
          ("stroke", .obj [("color", .str "#000000"), ("width", .int 1)])],
        .obj [("type", .str "text"), ("content", .str "good two")]])])
      none =
      some ⟨.solidBg (.str "#FFFFFF"),
        [] ++ ([.textPaint 0 0 100 20 "good one" (.int 48) (.str "normal")
            (.str "#000000") (.str "#000000") 0 true] ++
          ((drawText constEnv [("type", .str "text"),
              ("content", .str "bad"), ("color", .str "zz"),
              ("stroke", .obj [("color", .str "#000000"),
                ("width", .int 1)])]).toList ++
            [.textPaint 0 0 100 20 "good two" (.int 48) (.str "normal")
              (.str "#000000") (.str "#000000") 0 true]))⟩ ∧
    renderThumbnail constEnv (.obj (setField [("elements", .arr [
        .obj [("type", .str "text"), ("content", .str "good one")],
        .obj [("type", .str "text"), ("content", .str "bad"),
          ("color", .str "zz"),
          ("stroke", .obj [("color", .str "#000000"), ("width", .int 1)])],
        .obj [("type", .str "text"), ("content", .str "good two")]])]
        "elements"
        (.arr ([.obj [("type", .str "text"), ("content", .str "good one")]] ++
          [.obj [("type", .str "text"), ("content", .str "good two")]]))))
      none =
      some ⟨.solidBg (.str "#FFFFFF"),
        [] ++ ([.textPaint 0 0 100 20 "good one" (.int 48) (.str "normal")
            (.str "#000000") (.str "#000000") 0 true] ++
          [.textPaint 0 0 100 20 "good two" (.int 48) (.str "normal")
            (.str "#000000") (.str "#000000") 0 true])⟩ :=
  C4_failure_contained constEnv none _
    [.obj [("type", .str "text"), ("content", .str "good one")]]
    [.obj [("type", .str "text"), ("content", .str "good two")]]
    [("type", .str "text"), ("content", .str "bad"), ("color", .str "zz"),
      ("stroke", .obj [("color", .str "#000000"), ("width", .int 1)])]
    (.solidBg (.str "#FFFFFF")) []
    [.textPaint 0 0 100 20 "good one" (.int 48) (.str "normal")
      (.str "#000000") (.str "#000000") 0 true]
    [.textPaint 0 0 100 20 "good two" (.int 48) (.str "normal")
      (.str "#000000") (.str "#000000") 0 true]
    rfl rfl rfl rfl rfl rfl

/-! ## Bounds of the painted boxes (C3) -/

/-- The claim's own formalization of the bounds invariant: the re-clamped
position of a painted box, with the box's drawn size, lies fully within
the 1280x720 canvas. -/
def opInBounds : ElemOp → Prop
  | .paste x y w h _ => 0 ≤ x ∧ 0 ≤ y ∧ x + w ≤ 1280 ∧ y + h ≤ 720
  | .textPaint x y tw th _ _ _ _ _ _ _ =>
      0 ≤ x ∧ 0 ≤ y ∧ x + (tw : Int) ≤ 1280 ∧ y + (th : Int) ≤ 720

theorem clampPos_bounds (x size cap : Int) (h1 : size ≤ cap) :
    0 ≤ max 0 (min x (cap - size)) ∧
      max 0 (min x (cap - size)) + size ≤ cap := by
  omega

/-- Fits-inside part of the aspect-fit analysis (shared helper). -/
theorem aspectFit_bounds (srcW srcH : Nat) (boxW boxH outW outH : Int)
    (hsw : 0 < srcW) (hsh : 0 < srcH) (hbw : 0 < boxW) (hbh : 0 < boxH)
    (h : aspectFit srcW srcH boxW boxH = some (outW, outH)) :
    0 ≤ outW ∧ outW ≤ boxW ∧ 0 ≤ outH ∧ outH ≤ boxH := by
  have hsW0 : (0:ℚ) < (srcW:ℚ) := by exact_mod_cast hsw
  have hsH0 : (0:ℚ) < (srcH:ℚ) := by exact_mod_cast hsh
  have hbW0 : (0:ℚ) < (boxW:ℚ) := by exact_mod_cast hbw
  have hbH0 : (0:ℚ) < (boxH:ℚ) := by exact_mod_cast hbh
  rw [aspectFit, if_neg (by omega)] at h
  dsimp only at h
  by_cases hcond : (srcW:ℚ)/(srcH:ℚ) > (boxW:ℚ)/(boxH:ℚ)
  · rw [if_pos hcond, if_neg (ne_of_gt (div_pos hsW0 hsH0))] at h
    simp only [Option.some.injEq, Prod.mk.injEq] at h
    obtain ⟨h1, h2⟩ := h
    subst h1
    subst h2
    set q : ℚ := (boxW:ℚ)/((srcW:ℚ)/(srcH:ℚ)) with hqdef
    have hq0 : 0 < q := div_pos hbW0 (div_pos hsW0 hsH0)
    have hfl : pytrunc q = ⌊q⌋ := by rw [pytrunc, if_pos hq0.le]
    have hcross : (boxW:ℚ) * (srcH:ℚ) < (srcW:ℚ) * (boxH:ℚ) :=
      (div_lt_div_iff₀ hbH0 hsH0).mp hcond
    have hqlt : q < (boxH:ℚ) := by
      rw [hqdef, div_lt_iff₀ (div_pos hsW0 hsH0), ← mul_div_assoc,
        lt_div_iff₀ hsH0]
      linarith [hcross]
    rw [hfl]
    exact ⟨hbw.le, le_refl _, Int.floor_nonneg.mpr hq0.le,
      (Int.floor_lt.mpr hqlt).le⟩
  · rw [if_neg hcond] at h
    simp only [Option.some.injEq, Prod.mk.injEq] at h
    obtain ⟨h1, h2⟩ := h
    subst h1
    subst h2
    set q : ℚ := (boxH:ℚ) * ((srcW:ℚ)/(srcH:ℚ)) with hqdef
    have hq0 : 0 < q := mul_pos hbH0 (div_pos hsW0 hsH0)
    have hfl : pytrunc q = ⌊q⌋ := by rw [pytrunc, if_pos hq0.le]
    have hqs : q * (srcH:ℚ) = (boxH:ℚ) * (srcW:ℚ) := by
      rw [hqdef, mul_assoc, div_mul_cancel₀ _ (ne_of_gt hsH0)]
    have hle : (srcW:ℚ)/(srcH:ℚ) ≤ (boxW:ℚ)/(boxH:ℚ) := not_lt.mp hcond
    have hcross : (srcW:ℚ) * (boxH:ℚ) ≤ (boxW:ℚ) * (srcH:ℚ) :=
      (div_le_div_iff₀ hsH0 hbH0).mp hle
    have hqle : q ≤ (boxW:ℚ) := by
      have hmul : q * (srcH:ℚ) ≤ (boxW:ℚ) * (srcH:ℚ) := by
        rw [hqs]
        linarith [hcross]
      exact le_of_mul_le_mul_right hmul hsH0
    have hflle : ⌊q⌋ ≤ boxW := by
      have := Int.floor_le_floor hqle
      rwa [Int.floor_intCast] at this
    rw [hfl]
    exact ⟨Int.floor_nonneg.mpr hq0.le, hflle, hbh.le, le_refl _⟩

theorem drawImage_inBounds (s : Subject) (efs : Fields) (op : ElemOp)
    (hsw : 0 < s.w) (hsh : 0 < s.h)
    (hdim : ∀ w h : Int, intField efs "width" 300 = some w →
      intField efs "height" 300 = some h →
      0 < w ∧ w ≤ 1280 ∧ 0 < h ∧ h ≤ 720)
    (h : drawImage s efs = some op) : opInBounds op := by
  rw [drawImage] at h
  cases hx : intField efs "x" 0 with
  | none => rw [hx] at h; simp at h
  | some x =>
  cases hy : intField efs "y" 0 with
  | none => rw [hx, hy] at h; simp at h
  | some y =>
  cases hw : intField efs "width" 300 with
  | none => rw [hx, hy, hw] at h; simp at h
  | some w =>
  cases hh : intField efs "height" 300 with
  | none => rw [hx, hy, hw, hh] at h; simp at h
  | some bh =>
      rw [hx, hy, hw, hh] at h
      dsimp only at h
      obtain ⟨hw1, hw2, hh1, hh2⟩ := hdim w bh hw hh
      cases haf : aspectFit s.w s.h w bh with
      | none => rw [haf] at h; simp at h
      | some p =>
          obtain ⟨nw, nh⟩ := p
          rw [haf] at h
          dsimp only at h
          obtain ⟨b1, b2, b3, b4⟩ :=
            aspectFit_bounds s.w s.h w bh nw nh hsw hsh hw1 hh1 haf
          rw [if_neg (by omega)] at h
          simp only [Option.some.injEq] at h
          subst h
          rw [opInBounds]
          obtain ⟨cx1, cx2⟩ := clampPos_bounds x nw 1280 (by omega)
          obtain ⟨cy1, cy2⟩ := clampPos_bounds y nh 720 (by omega)
          exact ⟨cx1, cy1, cx2, cy2⟩

theorem drawText_inBounds (env : FontEnv) (efs : Fields) (op : ElemOp)
    (hm : ∀ c v w, (env.measure c v w).1 ≤ 1280 ∧
      (env.measure c v w).2 ≤ 720)
    (h : drawText env efs = some op) : opInBounds op := by
  rw [drawText] at h
  cases hc : strField efs "content" with
  | none => rw [hc] at h; simp at h
  | some content =>
  cases hx : intField efs "x" 0 with
  | none => rw [hc, hx] at h; simp at h
  | some x =>
  cases hy : intField efs "y" 0 with
  | none => rw [hc, hx, hy] at h; simp at h
  | some y =>
      rw [hc, hx, hy] at h
      dsimp only at h
      cases hs : strokeField efs with
      | none => rw [hs] at h; simp at h
      | some strokeData =>
          rw [hs] at h
          dsimp only at h
          cases hsw : intField strokeData "width" 0 with
          | none => rw [hsw] at h; simp at h
          | some strokeWidth =>
              rw [hsw] at h
              dsimp only at h
              obtain ⟨hm1, hm2⟩ := hm content
                ((getField efs "fontSize").getD (.int 48))
                ((getField efs "fontWeight").getD (.str "normal"))
              obtain ⟨cx1, cx2⟩ := clampPos_bounds
                (alignX ((getField efs "alignment").getD (.str "left")) x
                  (env.measure content
                    ((getField efs "fontSize").getD (.int 48))
                    ((getField efs "fontWeight").getD (.str "normal"))).1)
                ((env.measure content
                  ((getField efs "fontSize").getD (.int 48))
                  ((getField efs "fontWeight").getD (.str "normal"))).1 : Int)
                1280 (by exact_mod_cast hm1)
              obtain ⟨cy1, cy2⟩ := clampPos_bounds y
                ((env.measure content
                  ((getField efs "fontSize").getD (.int 48))
                  ((getField efs "fontWeight").getD (.str "normal"))).2 : Int)
                720 (by exact_mod_cast hm2)
              by_cases hA : 0 < strokeWidth ∧
                  env.colorOk ((getField strokeData "color").getD
                    (.str "#000000")) = false
              · rw [if_pos hA] at h
                simp at h
              · rw [if_neg hA] at h
                by_cases hB : env.colorOk ((getField efs "color").getD
                    (.str "#000000")) = false
                · rw [if_pos hB] at h
                  by_cases hC : 0 < strokeWidth
                  · rw [if_pos hC] at h
                    simp only [Option.some.injEq] at h
                    subst h
                    rw [opInBounds]
                    exact ⟨cx1, cy1, cx2, cy2⟩
                  · rw [if_neg hC] at h
                    simp at h
                · rw [if_neg hB] at h
                  simp only [Option.some.injEq] at h
                  subst h
                  rw [opInBounds]
                  exact ⟨cx1, cy1, cx2, cy2⟩

theorem elemLoop_mem (f : Fields → List ElemOp) :
    ∀ {l : List JVal} {ops : List ElemOp}, elemLoop f l = some ops →
      ∀ op ∈ ops, ∃ efs, (JVal.obj efs) ∈ l ∧ op ∈ f efs := by
  intro l
  induction l with
  | nil =>
      intro ops h op hop
      simp only [elemLoop, Option.some.injEq] at h
      subst h
      simp at hop
  | cons e rest ih =>
      intro ops h op hop
      cases e with
      | obj efs =>
          rw [elemLoop] at h
          cases hrest : elemLoop f rest with
          | none => rw [hrest] at h; simp at h
          | some ops' =>
              rw [hrest] at h
              simp only [Option.map_some', Option.some.injEq] at h
              subst h
              rcases List.mem_append.mp hop with hin | hin
              · exact ⟨efs, List.mem_cons_self _ _, hin⟩
              · obtain ⟨gfs, hg1, hg2⟩ := ih hrest op hin
                exact ⟨gfs, List.mem_cons_of_mem _ hg1, hg2⟩
      | str s => simp [elemLoop] at h
      | int n => simp [elemLoop] at h
      | arr a => simp [elemLoop] at h

/-- C3 amended: every box painted by the renderer lies fully within the
1280x720 canvas, provided every drawn size fits the canvas at all — i.e.
the font measurement of each text never exceeds 1280x720 and each image
element's declared box is positive and at most 1280x720 (the aspect-fit
result then also fits).  Without those size bounds the re-clamp
`max(0, min(pos, canvas - size))` parks the box at the origin and it
overflows the canvas (see the counterexample). -/
theorem C3_bounds_amended (env : FontEnv) (s : Subject) (fs : Fields)
    (es : List JVal) (c : CanvasModel)
    (hes : getField fs "elements" = some (.arr es))
    (hsw : 0 < s.w) (hsh : 0 < s.h)
    (hm : ∀ cs v w, (env.measure cs v w).1 ≤ 1280 ∧
      (env.measure cs v w).2 ≤ 720)
    (hdim : ∀ efs, (JVal.obj efs) ∈ es → ∀ w h : Int,
      intField efs "width" 300 = some w →
      intField efs "height" 300 = some h →
      0 < w ∧ w ≤ 1280 ∧ 0 < h ∧ h ≤ 720)
    (hr : renderThumbnail env (.obj fs) (some s) = some c) :
    ∀ op ∈ c.ops, opInBounds op := by
  rw [renderThumbnail] at hr
  cases hbg : drawBackground ((getField fs "background").getD (.obj [])) with
  | none => rw [hbg] at hr; simp at hr
  | some bg =>
      rw [hbg] at hr
      dsimp only at hr
      rw [elementsOf, hes] at hr
      dsimp only at hr
      cases hp1 : renderPass1 (some s) es with
      | none => rw [hp1] at hr; simp at hr
      | some imgOps =>
      cases hp2 : renderPass2 env es with
      | none => rw [hp1, hp2] at hr; simp at hr
      | some txtOps =>
          rw [hp1, hp2] at hr
          simp only [Option.some.injEq] at hr
          subst hr
          intro op hop
          rcases List.mem_append.mp hop with hin | hin
          · obtain ⟨efs, hmem, hopin⟩ := elemLoop_mem _ hp1 op hin
            rw [imagePassBody.eq_def] at hopin
            by_cases himg : typeIs efs "image" = true
            · rw [if_pos himg] at hopin
              dsimp only at hopin
              cases hdi : drawImage s efs with
              | none => rw [hdi] at hopin; simp at hopin
              | some op' =>
                  rw [hdi] at hopin
                  simp only [Option.toList_some, List.mem_singleton] at hopin
                  subst hopin
                  exact drawImage_inBounds s efs _ hsw hsh (hdim efs hmem) hdi
            · rw [if_neg himg] at hopin
              simp at hopin
          · obtain ⟨efs, hmem, hopin⟩ := elemLoop_mem _ hp2 op hin
            rw [textPassBody.eq_def] at hopin
            by_cases htxt : typeIs efs "text" = true
            · rw [if_pos htxt] at hopin
              cases hdt : drawText env efs with
              | none => rw [hdt] at hopin; simp at hopin
              | some op' =>
                  rw [hdt] at hopin
                  simp only [Option.toList_some, List.mem_singleton] at hopin
                  subst hopin
                  exact drawText_inBounds env efs _ hm hdt
            · rw [if_neg htxt] at hopin
              simp at hopin

/-- C3 counterexample: an image element whose declared 2000x2000 box
exceeds the canvas.  The aspect-fit keeps 2000x2000 (square subject), the
re-clamp `max(0, min(0, 1280 - 2000))` parks the paste at the origin, and
the painted 2000x2000 box overflows the 1280x720 canvas.  The validator
never clamps `width`/`height`, so this layout passes validation untouched
apart from defaults. -/
theorem C3_counterexample :
    renderThumbnail constEnv (.obj [("background",
        .obj [("type", .str "solid")]),
      ("elements", .arr [.obj [("type", .str "image"), ("x", .int 0),
        ("y", .int 0), ("width", .int 2000), ("height", .int 2000)]])])
      (some ⟨100, 100, false⟩) =
      some ⟨.solidBg (.str "#FFFFFF"), [.paste 0 0 2000 2000 false]⟩ ∧
    ¬ opInBounds (.paste 0 0 2000 2000 false) := by
  constructor
  · have haf : aspectFit 100 100 2000 2000 = some (2000, 2000) := by
      rw [aspectFit]
      norm_num [pytrunc]
    simp [renderThumbnail, elementsOf, getField, drawBackground, renderPass1,
      renderPass2, elemLoop, imagePassBody, textPassBody, typeIs, drawImage,
      intField, haf]
  · rw [opInBounds]
    omega

/-- Witness for C3's amended theorem: a text element anchored off-canvas
at (9999, -50) is re-clamped so its measured 100x20 box lies inside the
canvas. -/
theorem C3_bounds_amended_witness :
    opInBounds (.textPaint 1180 0 100 20 "hi" (.int 48) (.str "normal")
      (.str "#000000") (.str "#000000") 0 true) :=
  C3_bounds_amended constEnv ⟨10, 10, false⟩
    [("background", .obj [("type", .str "solid")]),
      ("elements", .arr [.obj [("type", .str "text"), ("content", .str "hi"),
        ("x", .int 9999), ("y", .int (-50))]])]
    [.obj [("type", .str "text"), ("content", .str "hi"),
      ("x", .int 9999), ("y", .int (-50))]]
    (CanvasModel.mk (.solidBg (.str "#FFFFFF"))
      [.textPaint 1180 0 100 20 "hi" (.int 48) (.str "normal")
        (.str "#000000") (.str "#000000") 0 true])
    rfl (by decide) (by decide)
    (fun cs v w => ⟨(by decide : (100:Nat) ≤ 1280),
      (by decide : (20:Nat) ≤ 720)⟩)
    (by
      intro efs hmem w h hw hh
      simp only [List.mem_singleton] at hmem
      cases hmem
      have hw300 : w = 300 := by
        simpa [intField, getField] using hw.symm
      have hh300 : h = 300 := by
        simpa [intField, getField] using hh.symm
      subst hw300
      subst hh300
      refine ⟨by decide, by decide, by decide, by decide⟩)
    rfl
    (.textPaint 1180 0 100 20 "hi" (.int 48) (.str "normal")
      (.str "#000000") (.str "#000000") 0 true)
    (List.mem_singleton.mpr rfl)
